import Mathlib

/-!
# Scheduling policies and resource arbitration of `PCP Scheduler.c`

A shallow embedding of `src/sce213-pa2-2020s/PCP Scheduler.c`.

* Processes are named by a number (the C code passes `struct process *`); a
  pointer that may be `NULL` is an `Option Nat`.
* The globals `current`, `readyqueue` and `resources[]`, together with the
  fields of every process record, form the explicit `State`.
* The intrusive `list_head` queues are sequences of process names, head first;
  `list_empty` followed by `list_first_entry` is a case split on the sequence.
* `assert` failures and dereferences of `NULL` end a call with a `Fault`
  carrying the state reached at that point.
-/

namespace PCPScheduler

/-- Modelled from the spec: `process.h` is not among the sources. The status
values are the ones the code names (`PROCESS_READY`, `PROCESS_WAIT`) plus the
running status of the data model. -/
inductive ProcessStatus where
  | PROCESS_READY
  | PROCESS_RUNNING
  | PROCESS_WAIT
  deriving DecidableEq, Repr

/-- Modelled from the spec: `struct process` of `process.h`, which is not among
the sources. Only the fields read or written by the policies are kept; the
`list` link is represented by membership in the queues of `State`. All numeric
fields are `unsigned int` and are only compared or copied, never added. -/
structure Process where
  status : ProcessStatus
  age : Nat
  lifespan : Nat
  prio : Nat
  prio_orig : Nat
  deriving DecidableEq, Repr

/-- Modelled from the spec: `struct resource` of `resource.h`, which is not
among the sources: an optional owner and the queue of blocked processes. -/
structure Resource where
  owner : Option Nat
  waitqueue : List Nat
  deriving DecidableEq, Repr

/-- The global variables the policies work on: the process records, `current`,
`readyqueue` and `resources`. The resource index is validated by the caller,
so the table is total. -/
structure State where
  procs : Nat → Process
  current : Option Nat
  readyqueue : List Nat
  resources : Nat → Resource

/-- The two ways a call can end abnormally. -/
inductive Fault where
  | assertion
  | nullDeref
  deriving DecidableEq, Repr

/-- Result of a call: a value and the new state, or a fault together with the
state at the point of failure. -/
abbrev Outcome (α : Type) := Except (Fault × State) (α × State)

/-! ## `list_head.h` -/

/-- Modelled from the spec: `list_add_tail` of `list_head.h` (not among the
sources): the entry becomes the last one of the queue. The links of an entry
that is still part of another queue are overwritten by the C function; here
the other queue keeps the entry, so only the queue inserted into is exact in
that situation. -/
def list_add_tail (entry : Nat) (head : List Nat) : List Nat := head ++ [entry]

/-- Modelled from the spec: `list_add` of `list_head.h` (not among the
sources): the entry becomes the first one of the queue. -/
def list_add (entry : Nat) (head : List Nat) : List Nat := entry :: head

/-- Modelled from the spec: `list_del_init` of `list_head.h` (not among the
sources): the entry is unlinked from the queue it sits in; the other entries
keep their order. -/
def list_del_init (entry : Nat) (head : List Nat) : List Nat := head.erase entry

/-! ## Field updates -/

/-- Assignment `p->status = st`. -/
def set_status (s : State) (p : Nat) (st : ProcessStatus) : State :=
  { s with procs := Function.update s.procs p { s.procs p with status := st } }

/-- Assignment `p->prio = v`. -/
def set_prio (s : State) (p : Nat) (v : Nat) : State :=
  { s with procs := Function.update s.procs p { s.procs p with prio := v } }

/-- Assignment `r->owner = o` for `r = resources + resource_id`. -/
def set_owner (s : State) (resource_id : Nat) (o : Option Nat) : State :=
  { s with resources :=
      Function.update s.resources resource_id { s.resources resource_id with owner := o } }

/-- Replacement of the wait queue of `resources[resource_id]`. -/
def set_waitqueue (s : State) (resource_id : Nat) (q : List Nat) : State :=
  { s with resources :=
      Function.update s.resources resource_id { s.resources resource_id with waitqueue := q } }

/-- Replacement of the ready queue. -/
def set_readyqueue (s : State) (q : List Nat) : State :=
  { s with readyqueue := q }

/-! ## Resource acquisition and release -/

/-- The part of the three acquire functions after the ownership test failed:
`current->status = PROCESS_WAIT; list_add_tail(&current->list, &r->waitqueue);
return false;`. -/
def block_current (s : State) (resource_id : Nat) : Outcome Bool :=
  match s.current with
  | none => .error (Fault.nullDeref, s)
  | some c =>
    let s1 := set_status s c ProcessStatus.PROCESS_WAIT
    let s2 := set_waitqueue s1 resource_id
      (list_add_tail c (s1.resources resource_id).waitqueue)
    .ok (false, s2)

/-- The function `fcfs_acquire`. -/
def fcfs_acquire (s : State) (resource_id : Nat) : Outcome Bool :=
  match (s.resources resource_id).owner with
  | none => .ok (true, set_owner s resource_id s.current)
  | some _ => block_current s resource_id

/-- The part of both release functions after ownership was cleared: wake up
the first waiter, if there is one. -/
def wake_first (s : State) (resource_id : Nat) : Outcome Unit :=
  match (s.resources resource_id).waitqueue with
  | [] => .ok ((), s)
  | waiter :: rest =>
    if (s.procs waiter).status = ProcessStatus.PROCESS_WAIT then
      let s1 := set_waitqueue s resource_id (list_del_init waiter (waiter :: rest))
      let s2 := set_status s1 waiter ProcessStatus.PROCESS_READY
      .ok ((), set_readyqueue s2 (list_add_tail waiter s2.readyqueue))
    else .error (Fault.assertion, s)

/-- The function `fcfs_release`. -/
def fcfs_release (s : State) (resource_id : Nat) : Outcome Unit :=
  if (s.resources resource_id).owner = s.current then
    wake_first (set_owner s resource_id none) resource_id
  else .error (Fault.assertion, s)

/-- The function `pcp_acquire`; `MAX_PRIO` is the constant of `process.h`,
which is not among the sources. -/
def pcp_acquire ( MAX_PRIO : Nat) (s : State) (resource_id : Nat) : Outcome Bool :=
  match (s.resources resource_id).owner with
  | none =>
    let s1 := set_owner s resource_id s.current
    match s1.current with
    | none => .error (Fault.nullDeref, s1)
    | some c => .ok (true, set_prio s1 c MAX_PRIO)
  | some _ => block_current s resource_id

/-- The function `prio_release`. -/
def prio_release (s : State) (resource_id : Nat) : Outcome Unit :=
  if (s.resources resource_id).owner = s.current then
    match (s.resources resource_id).owner with
    | none => .error (Fault.nullDeref, s)
    | some o =>
      let s1 := set_prio s o (s.procs o).prio_orig
      wake_first (set_owner s1 resource_id none) resource_id
  else .error (Fault.assertion, s)

/-- The function `pip_acquire`. -/
def pip_acquire (s : State) (resource_id : Nat) : Outcome Bool :=
  match (s.resources resource_id).owner with
  | none => .ok (true, set_owner s resource_id s.current)
  | some _ => block_current s resource_id

/-! ## The `schedule` functions -/

/-- The label `pick_next` of `fifo_schedule`: detach and return the first
process of the ready queue, or return `NULL`. -/
def pick_next (s : State) : Outcome (Option Nat) :=
  match s.readyqueue with
  | [] => .ok (none, s)
  | next :: rest =>
    .ok (some next, set_readyqueue s (list_del_init next (next :: rest)))

/-- The function `fifo_schedule`. -/
def fifo_schedule (s : State) : Outcome (Option Nat) :=
  match s.current with
  | none => pick_next s
  | some c =>
    if (s.procs c).status = ProcessStatus.PROCESS_WAIT then pick_next s
    else if (s.procs c).age < (s.procs c).lifespan then .ok (some c, s)
    else pick_next s

/-- One round of the loop of `sjf_schedule` on the pair `(lsChk, sjfSmallest)`. -/
def sjf_step (s : State) (acc : Nat × Option Nat) (sjfProc : Nat) : Nat × Option Nat :=
  if (s.procs sjfProc).lifespan < acc.1 then ((s.procs sjfProc).lifespan, some sjfProc)
  else acc

/-- The function `sjf_schedule`. `sjfSmallest` starts as `NULL` and `lsChk` as
the lifespan of the first ready process; `list_del_init(&sjfSmallest->list)`
dereferences `sjfSmallest`. The C code reads `lsChk` before it looks at
`current`; the value is used only on the path with a non-empty ready queue,
where it is computed here. -/
def sjf_schedule (s : State) : Outcome (Option Nat) :=
  let keep : Bool :=
    match s.current with
    | none => false
    | some c => decide ((s.procs c).age < (s.procs c).lifespan)
  if keep then .ok (s.current, s)
  else
    match s.readyqueue with
    | [] => .ok (none, s)
    | first :: rest =>
      let lsChk := (s.procs first).lifespan
      match ((first :: rest).foldl (sjf_step s) (lsChk, none)).2 with
      | none => .error (Fault.nullDeref, s)
      | some sjfSmallest =>
        .ok (some sjfSmallest,
          set_readyqueue s (list_del_init sjfSmallest (first :: rest)))

/-- One round of the loops of `srtf_schedule` on `srtfSmallest`. -/
def srtf_step (s : State) (srtfSmallest srtfProc : Nat) : Nat :=
  if (s.procs srtfProc).lifespan < (s.procs srtfSmallest).lifespan then srtfProc
  else srtfSmallest

/-- The function `srtf_schedule`. -/
def srtf_schedule (s : State) : Outcome (Option Nat) :=
  match s.current with
  | some c =>
    match s.readyqueue with
    | first :: rest =>
      let s1 :=
        if (s.procs c).age < (s.procs c).lifespan then
          set_readyqueue s (list_add c (first :: rest))
        else s
      let srtfSmallest := s1.readyqueue.foldl (srtf_step s1) first
      if (s1.procs srtfSmallest).age ≤ (s1.procs srtfSmallest).lifespan then
        .ok (some srtfSmallest,
          set_readyqueue s1 (list_del_init srtfSmallest s1.readyqueue))
      else .ok (none, s1)
    | [] =>
      if (s.procs c).age < (s.procs c).lifespan then .ok (some c, s)
      else .ok (none, s)
  | none =>
    match s.readyqueue with
    | first :: rest =>
      let srtfSmallest := (first :: rest).foldl (srtf_step s) first
      .ok (some srtfSmallest,
        set_readyqueue s (list_del_init srtfSmallest (first :: rest)))
    | [] => .ok (none, s)

/-- The function `rr_schedule`. With an empty ready queue `current->age` is
read without a test of `current`. -/
def rr_schedule (s : State) : Outcome (Option Nat) :=
  match s.readyqueue with
  | rrProc :: rest =>
    match s.current with
    | some c =>
      if (s.procs c).age < (s.procs c).lifespan then
        let s1 := set_readyqueue s (list_add_tail c (rrProc :: rest))
        .ok (some rrProc, set_readyqueue s1 (list_del_init rrProc s1.readyqueue))
      else
        .ok (some rrProc, set_readyqueue s (list_del_init rrProc (rrProc :: rest)))
    | none =>
      .ok (some rrProc, set_readyqueue s (list_del_init rrProc (rrProc :: rest)))
  | [] =>
    match s.current with
    | none => .error (Fault.nullDeref, s)
    | some c =>
      if (s.procs c).age < (s.procs c).lifespan then .ok (some c, s)
      else .ok (none, s)

/-- One round of the loops of `prio_schedule` on `highest`. -/
def prio_step (s : State) (highest prioProc : Nat) : Nat :=
  if (s.procs prioProc).prio > (s.procs highest).prio then prioProc
  else highest

/-- The function `prio_schedule`. -/
def prio_schedule (s : State) : Outcome (Option Nat) :=
  match s.current with
  | some c =>
    match s.readyqueue with
    | first :: rest =>
      let s1 :=
        if (s.procs c).age < (s.procs c).lifespan then
          set_readyqueue s (list_add_tail c (first :: rest))
        else s
      let highest := s1.readyqueue.foldl (prio_step s1) first
      if (s1.procs highest).age ≤ (s1.procs highest).lifespan then
        .ok (some highest, set_readyqueue s1 (list_del_init highest s1.readyqueue))
      else .ok (none, s1)
    | [] =>
      if (s.procs c).age < (s.procs c).lifespan then .ok (some c, s)
      else .ok (none, s)
  | none =>
    match s.readyqueue with
    | first :: rest =>
      let highest := (first :: rest).foldl (prio_step s) first
      .ok (some highest, set_readyqueue s (list_del_init highest (first :: rest)))
    | [] => .ok (none, s)

/-! ## Postconditions and sample states -/

/-- The postcondition of an acquire on a free resource: process `p` owns
`resource_id`; the wait queue of the resource, the ready queue, `current`,
every other resource and the status of `p` are as before. -/
def Granted (s s' : State) (resource_id p : Nat) : Prop :=
  (s'.resources resource_id).owner = some p ∧
  (s'.resources resource_id).waitqueue = (s.resources resource_id).waitqueue ∧
  s'.readyqueue = s.readyqueue ∧
  s'.current = s.current ∧
  (∀ r, r ≠ resource_id → s'.resources r = s.resources r) ∧
  (s'.procs p).status = (s.procs p).status

/-- The postcondition of an acquire on a busy resource: process `p` is
`PROCESS_WAIT` and last in the wait queue of `resource_id`, behind the earlier
waiters; the owner, the ready queue, `current` and every other resource are as
before. -/
def Blocked (s s' : State) (resource_id p : Nat) : Prop :=
  (s'.procs p).status = ProcessStatus.PROCESS_WAIT ∧
  (s'.resources resource_id).waitqueue = (s.resources resource_id).waitqueue ++ [p] ∧
  (s'.resources resource_id).owner = (s.resources resource_id).owner ∧
  s'.readyqueue = s.readyqueue ∧
  s'.current = s.current ∧
  (∀ r, r ≠ resource_id → s'.resources r = s.resources r)

/-- A process record that is ready, has not run yet and has equal base and
effective priority. -/
def mkProc (lifespan prio : Nat) : Process :=
  { status := ProcessStatus.PROCESS_READY, age := 0, lifespan := lifespan,
    prio := prio, prio_orig := prio }

/-- A resource nobody owns or waits for. -/
def freeResource : Resource := { owner := none, waitqueue := [] }

/-- Sample state: process 0 is running, processes 1 and 2 are ready, all
resources are free. -/
def sampleFree : State :=
  { procs := fun p => mkProc (p + 3) p,
    current := some 0,
    readyqueue := [1, 2],
    resources := fun _ => freeResource }

/-- Sample state: process 0 is running and requests resource 0, which process 1
(ready) owns while process 2 already waits for it. -/
def sampleBusy : State :=
  { procs := fun p =>
      if p = 2 then { mkProc 5 2 with status := ProcessStatus.PROCESS_WAIT }
      else mkProc (p + 3) p,
    current := some 0,
    readyqueue := [1],
    resources := fun r =>
      if r = 0 then { owner := some 1, waitqueue := [2] } else freeResource }

/-- The postcondition of a release that wakes `w`: the call returns, the
resource has no owner, `w` is `PROCESS_READY`, the wait queue is `rest` and the
ready queue is the old one with `w` appended at the tail. -/
def Woken (s : State) (out : Outcome Unit) (resource_id w : Nat) (rest : List Nat) : Prop :=
  ∃ s', out = .ok ((), s') ∧
    (s'.resources resource_id).owner = none ∧
    (s'.procs w).status = ProcessStatus.PROCESS_READY ∧
    (s'.resources resource_id).waitqueue = rest ∧
    s'.readyqueue = s.readyqueue ++ [w]

/-- The postcondition of a release nobody waits for: the call returns, the
resource has no owner and the ready queue is as before. -/
def ReleasedIdle (s : State) (out : Outcome Unit) (resource_id : Nat) : Prop :=
  ∃ s', out = .ok ((), s') ∧
    (s'.resources resource_id).owner = none ∧
    (s'.resources resource_id).waitqueue = [] ∧
    s'.readyqueue = s.readyqueue

/-- Sample state: process `p` is running and owns resource 0, the processes of
`q` wait for it with status `PROCESS_WAIT`, process 7 is ready. -/
def ownedBy (p : Nat) (q : List Nat) : State :=
  { procs := fun x =>
      if x ∈ q then { mkProc 5 x with status := ProcessStatus.PROCESS_WAIT }
      else mkProc 5 x,
    current := some p,
    readyqueue := [7],
    resources := fun r =>
      if r = 0 then { owner := some p, waitqueue := q } else freeResource }

/-- Sample state: process 0 is running and owns resource 0; process 1 sits in
the wait queue of the resource although its status is `PROCESS_READY`. -/
def staleWaiter : State :=
  { procs := fun x => mkProc 5 x,
    current := some 0,
    readyqueue := [7],
    resources := fun r =>
      if r = 0 then { owner := some 0, waitqueue := [1] } else freeResource }

/-- A process record with the given status, age, lifespan and priority. -/
def proc (status : ProcessStatus) (age lifespan prio : Nat) : Process :=
  { status := status, age := age, lifespan := lifespan, prio := prio, prio_orig := prio }

/-- The process table holding the records of `l` under the names `0, 1, ...`. -/
def procsOf (l : List Process) : Nat → Process :=
  fun p => l.getD p (mkProc 0 0)

/-- A state without resource activity: all resources are free. -/
def mkState (l : List Process) (current : Option Nat) (readyqueue : List Nat) : State :=
  { procs := procsOf l, current := current, readyqueue := readyqueue,
    resources := fun _ => freeResource }

/-- Three processes with lifespans 5, 3 and 1 arrive together; `a0`, `a1` and
`a2` are their ages. -/
def sjfTable (a0 a1 a2 : Nat) : List Process :=
  [proc ProcessStatus.PROCESS_READY a0 5 0, proc ProcessStatus.PROCESS_READY a1 3 0,
   proc ProcessStatus.PROCESS_READY a2 1 0]

/-- Process 0 (lifespan 10) has run 9 ticks when process 1 (lifespan 5) arrives. -/
def srtfLate : State :=
  mkState [proc ProcessStatus.PROCESS_RUNNING 9 10 0, proc ProcessStatus.PROCESS_READY 0 5 0]
    (some 0) [1]

/-- Nothing is ready and nothing has run yet. -/
def idleState : State := mkState [] none []

/-- Process 0 (priority 5) is running and is about to request resource 0, which
process 1 (priority 1, ready) owns. -/
def prioContended : State :=
  { procs := procsOf [proc ProcessStatus.PROCESS_RUNNING 1 4 5,
      proc ProcessStatus.PROCESS_READY 1 4 1],
    current := some 0,
    readyqueue := [1],
    resources := fun r =>
      if r = 0 then { owner := some 1, waitqueue := [] } else freeResource }

/-- The state in which a call ends: the state returned, or the state at the
point of failure. -/
def endState {α : Type} (out : Outcome α) : State :=
  match out with
  | .ok (_, s) => s
  | .error (_, s) => s

/-- Sample state: process 0 runs with priority 64 although its base priority
is 2, and owns resource 0; process 1 (priority 9) waits for the resource and
process 2 is ready. -/
def boostedOwner : State :=
  { procs := procsOf [{ proc ProcessStatus.PROCESS_RUNNING 1 4 64 with prio_orig := 2 },
      proc ProcessStatus.PROCESS_WAIT 0 4 9, proc ProcessStatus.PROCESS_READY 0 4 3],
    current := some 0,
    readyqueue := [2],
    resources := fun r =>
      if r = 0 then { owner := some 0, waitqueue := [1] } else freeResource }

/-- Sample state: process 0 runs and process 1 is ready; both have lifespan 6
and `a0`, `a1` are their ages. -/
def srtfTie (a0 a1 : Nat) : State :=
  mkState [proc ProcessStatus.PROCESS_RUNNING a0 6 0, proc ProcessStatus.PROCESS_READY a1 6 0]
    (some 0) [1]

/-- Sample state: process 0 (lifespan 10) has run 2 ticks; the new process 1
(lifespan 3, age 0) is ready, and so is process 2, whose age 5 exceeds its
lifespan 1. -/
def srtfOverAged : State :=
  mkState [proc ProcessStatus.PROCESS_RUNNING 2 10 0, proc ProcessStatus.PROCESS_READY 0 3 0,
    proc ProcessStatus.PROCESS_READY 5 1 0] (some 0) [1, 2]

/-- Sample state: process 0 (lifespan 10) has run 2 ticks when process 1
(lifespan 3) arrives behind the ready process 2 (lifespan 9, age 4). -/
def srtfArrival : State :=
  mkState [proc ProcessStatus.PROCESS_RUNNING 2 10 0, proc ProcessStatus.PROCESS_READY 0 3 0,
    proc ProcessStatus.PROCESS_READY 4 9 0] (some 0) [2, 1]

/-- Sample state: process 0 (base priority 1) is running and resource 0 is
free; the ready process 1 has priority `p1` and the ready process 2 has
priority 7. -/
def pcpBefore (p1 : Nat) : State :=
  mkState [proc ProcessStatus.PROCESS_RUNNING 1 4 1, proc ProcessStatus.PROCESS_READY 0 4 p1,
    proc ProcessStatus.PROCESS_READY 0 4 7] (some 0) [1, 2]

/-- Sample state: `pcpBefore p1` some ticks after process 0 was granted resource
0 by `pcp_acquire` with ceiling 64: it has run 3 ticks and still holds the
resource with priority 64. -/
def pcpHolding (p1 : Nat) : State :=
  { procs := procsOf [{ proc ProcessStatus.PROCESS_RUNNING 3 4 64 with prio_orig := 1 },
      proc ProcessStatus.PROCESS_READY 0 4 p1, proc ProcessStatus.PROCESS_READY 0 4 7],
    current := some 0,
    readyqueue := [1, 2],
    resources := fun r =>
      if r = 0 then { owner := some 0, waitqueue := [] } else freeResource }

/-- The predicate that every process in the wait queue of every resource has
status `PROCESS_WAIT`. -/
def AllWaitersWaiting (s : State) : Prop :=
  ∀ r, ∀ w ∈ (s.resources r).waitqueue, (s.procs w).status = ProcessStatus.PROCESS_WAIT

/-- The first process of the wait queue of `resource_id` occurs in no other
place of any wait queue. -/
def HeadWaiterOnce (s : State) (resource_id : Nat) : Prop :=
  ∀ w rest, (s.resources resource_id).waitqueue = w :: rest →
    w ∉ rest ∧ ∀ r, r ≠ resource_id → w ∉ (s.resources r).waitqueue

/-- Sample state: process 1 is running and requests resource 0, which the
ready process 0 owns. -/
def requestTwice : State :=
  { procs := procsOf [proc ProcessStatus.PROCESS_READY 1 4 1,
      proc ProcessStatus.PROCESS_RUNNING 1 4 5],
    current := some 1,
    readyqueue := [0],
    resources := fun r =>
      if r = 0 then { owner := some 0, waitqueue := [] } else freeResource }

/-- Sample state: the owner, process 0, runs again after process 1 was blocked
on resource 0 by two successive acquire calls, so process 1 is queued twice. -/
def queuedTwice : State :=
  { procs := procsOf [proc ProcessStatus.PROCESS_RUNNING 1 4 1,
      proc ProcessStatus.PROCESS_WAIT 1 4 5],
    current := some 0,
    readyqueue := [],
    resources := fun r =>
      if r = 0 then { owner := some 0, waitqueue := [1, 1] } else freeResource }

/-- The processes a `schedule` call chooses from: the ready queue, plus the
current process if it has `age < lifespan`. -/
def candidates (s : State) : List Nat :=
  s.readyqueue ++
    match s.current with
    | some c => if (s.procs c).age < (s.procs c).lifespan then [c] else []
    | none => []

/-- The processes of the queue `q` other than `p` and the current process, in
the order of `q`. -/
def others (s : State) (p : Nat) (q : List Nat) : List Nat :=
  q.filter (fun x => decide (x ≠ p) && decide (s.current ≠ some x))

/-- Conservation for one call: if it returns a process `p`, then `p` together
with the new ready queue is a permutation of the candidates, without
duplicates, and the ready processes other than `p` and the current process are
in the same order as before. -/
def Conserved (s : State) (out : Outcome (Option Nat)) : Prop :=
  ∀ p s', out = .ok (some p, s') →
    (p :: s'.readyqueue).Perm (candidates s) ∧
    (p :: s'.readyqueue).Nodup ∧
    others s p s'.readyqueue = others s p s.readyqueue

/-- Sample state: process 0 (priority 2, age 1 of lifespan 6) runs; processes
1, 2 and 3 are ready with lifespans 5, 3, 4 and priorities 1, 3, 2. -/
def fourProcs : State :=
  mkState [proc ProcessStatus.PROCESS_RUNNING 1 6 2, proc ProcessStatus.PROCESS_READY 0 5 1,
    proc ProcessStatus.PROCESS_READY 0 3 3, proc ProcessStatus.PROCESS_READY 0 4 2]
    (some 0) [1, 2, 3]

/-- Sample state: as `fourProcs`, but process 0 has finished (age 6 of lifespan
6). -/
def fourProcsDone : State :=
  mkState [proc ProcessStatus.PROCESS_RUNNING 6 6 2, proc ProcessStatus.PROCESS_READY 0 5 1,
    proc ProcessStatus.PROCESS_READY 0 3 3, proc ProcessStatus.PROCESS_READY 0 4 2]
    (some 0) [1, 2, 3]

/-! ## Acquire -/

/-- C1: on a resource without owner, each of `fcfs_acquire`, `pcp_acquire` and
`pip_acquire` returns true, makes the current process the owner and leaves the
wait queue of the resource, the ready queue, every other resource and the
status of the current process unchanged. -/
theorem acquire_free_grants ( MAX_PRIO : Nat) (s : State) (resource_id p : Nat)
    (hcur : s.current = some p)
    (hfree : (s.resources resource_id).owner = none) :
    (∃ s', fcfs_acquire s resource_id = .ok (true, s') ∧ Granted s s' resource_id p) ∧
    (∃ s', pcp_acquire MAX_PRIO s resource_id = .ok (true, s') ∧
      Granted s s' resource_id p) ∧
    (∃ s', pip_acquire s resource_id = .ok (true, s') ∧ Granted s s' resource_id p) := by
  have hown : Granted s (set_owner s resource_id s.current) resource_id p := by
    refine ⟨?_, ?_, rfl, rfl, ?_, rfl⟩
    · simp [set_owner, hcur]
    · simp [set_owner]
    · intro r hr
      simp [set_owner, Function.update_noteq hr]
  refine ⟨⟨set_owner s resource_id s.current, ?_, hown⟩,
    ⟨set_prio (set_owner s resource_id s.current) p MAX_PRIO, ?_, ?_⟩,
    ⟨set_owner s resource_id s.current, ?_, hown⟩⟩
  · simp [fcfs_acquire, hfree]
  · simp only [pcp_acquire, hfree, set_owner, hcur]
  · refine ⟨?_, ?_, rfl, rfl, ?_, ?_⟩
    · simp [set_owner, set_prio, hcur]
    · simp [set_owner, set_prio]
    · intro r hr
      simp [set_owner, set_prio, Function.update_noteq hr]
    · simp [set_prio, set_owner]
  · simp [pip_acquire, hfree]

/-- Witness for C1 on `sampleFree`, resource 0, requested by process 0. -/
theorem acquire_free_grants_witness :
    sampleFree.current = some 0 ∧ (sampleFree.resources 0).owner = none ∧
    (∃ s', fcfs_acquire sampleFree 0 = .ok (true, s') ∧ Granted sampleFree s' 0 0) ∧
    (∃ s', pcp_acquire 64 sampleFree 0 = .ok (true, s') ∧ Granted sampleFree s' 0 0) ∧
    (∃ s', pip_acquire sampleFree 0 = .ok (true, s') ∧ Granted sampleFree s' 0 0) :=
  ⟨rfl, rfl, acquire_free_grants 64 sampleFree 0 0 rfl rfl⟩

/-- The three acquire functions share the path taken on a busy resource. -/
theorem block_current_blocks (s : State) (resource_id p : Nat)
    (hcur : s.current = some p) :
    ∃ s', block_current s resource_id = .ok (false, s') ∧ Blocked s s' resource_id p := by
  refine ⟨set_waitqueue (set_status s p ProcessStatus.PROCESS_WAIT) resource_id
    (list_add_tail p (s.resources resource_id).waitqueue), ?_, ?_⟩
  · simp only [block_current, hcur, set_status]
  · refine ⟨?_, ?_, ?_, rfl, rfl, ?_⟩
    · simp [set_waitqueue, set_status]
    · simp [set_waitqueue, set_status, list_add_tail]
    · simp [set_waitqueue, set_status]
    · intro r hr
      simp [set_waitqueue, set_status, Function.update_noteq hr]

/-- C2: on a resource that has an owner, each of `fcfs_acquire`, `pcp_acquire`
and `pip_acquire` returns false, sets the status of the current process to
`PROCESS_WAIT`, appends it at the tail of the wait queue of the resource and
leaves the owner, the ready queue and every other resource unchanged. -/
theorem acquire_busy_blocks ( MAX_PRIO : Nat) (s : State) (resource_id p o : Nat)
    (hcur : s.current = some p)
    (hbusy : (s.resources resource_id).owner = some o) :
    (∃ s', fcfs_acquire s resource_id = .ok (false, s') ∧ Blocked s s' resource_id p) ∧
    (∃ s', pcp_acquire MAX_PRIO s resource_id = .ok (false, s') ∧
      Blocked s s' resource_id p) ∧
    (∃ s', pip_acquire s resource_id = .ok (false, s') ∧ Blocked s s' resource_id p) := by
  have h := block_current_blocks s resource_id p hcur
  refine ⟨?_, ?_, ?_⟩
  · simpa only [fcfs_acquire, hbusy] using h
  · simpa only [pcp_acquire, hbusy] using h
  · simpa only [pip_acquire, hbusy] using h

/-- Witness for C2 on `sampleBusy`: process 0 requests resource 0, owned by
process 1. -/
theorem acquire_busy_blocks_witness :
    sampleBusy.current = some 0 ∧ (sampleBusy.resources 0).owner = some 1 ∧
    (∃ s', fcfs_acquire sampleBusy 0 = .ok (false, s') ∧ Blocked sampleBusy s' 0 0) ∧
    (∃ s', pcp_acquire 64 sampleBusy 0 = .ok (false, s') ∧ Blocked sampleBusy s' 0 0) ∧
    (∃ s', pip_acquire sampleBusy 0 = .ok (false, s') ∧ Blocked sampleBusy s' 0 0) :=
  ⟨rfl, rfl, acquire_busy_blocks 64 sampleBusy 0 0 1 rfl rfl⟩

/-! ## Release -/

/-- The wake-up step on an empty wait queue does nothing. -/
theorem wake_first_nil (s : State) (resource_id : Nat)
    (hq : (s.resources resource_id).waitqueue = []) :
    wake_first s resource_id = .ok ((), s) := by
  simp [wake_first, hq]

/-- The wake-up step on a wait queue whose head is `PROCESS_WAIT`. -/
theorem wake_first_cons (s : State) (resource_id w : Nat) (rest : List Nat)
    (hq : (s.resources resource_id).waitqueue = w :: rest)
    (hw : (s.procs w).status = ProcessStatus.PROCESS_WAIT) :
    wake_first s resource_id =
      .ok ((), set_readyqueue
        (set_status (set_waitqueue s resource_id rest) w ProcessStatus.PROCESS_READY)
        (s.readyqueue ++ [w])) := by
  simp [wake_first, hq, hw, list_del_init, list_add_tail, set_status, set_waitqueue]

/-- The wake-up step stops at the assertion when the head of the wait queue is
not `PROCESS_WAIT`. -/
theorem wake_first_stale (s : State) (resource_id w : Nat) (rest : List Nat)
    (hq : (s.resources resource_id).waitqueue = w :: rest)
    (hw : (s.procs w).status ≠ ProcessStatus.PROCESS_WAIT) :
    wake_first s resource_id = .error (Fault.assertion, s) := by
  simp [wake_first, hq, hw]

/-- The wake-up step after the owner was cleared, head of the queue waiting. -/
theorem wake_first_woken (s s0 : State) (resource_id w : Nat) (rest : List Nat)
    (hq : (s0.resources resource_id).waitqueue = w :: rest)
    (hw : (s0.procs w).status = ProcessStatus.PROCESS_WAIT)
    (ho : (s0.resources resource_id).owner = none)
    (hr : s0.readyqueue = s.readyqueue) :
    Woken s (wake_first s0 resource_id) resource_id w rest := by
  refine ⟨_, wake_first_cons s0 resource_id w rest hq hw, ?_, ?_, ?_, ?_⟩
  · simpa [set_readyqueue, set_status, set_waitqueue] using ho
  · simp [set_readyqueue, set_status]
  · simp [set_readyqueue, set_status, set_waitqueue]
  · simp [set_readyqueue, hr]

/-- The wake-up step after the owner was cleared, nobody waiting. -/
theorem wake_first_idle (s s0 : State) (resource_id : Nat)
    (hq : (s0.resources resource_id).waitqueue = [])
    (ho : (s0.resources resource_id).owner = none)
    (hr : s0.readyqueue = s.readyqueue) :
    ReleasedIdle s (wake_first s0 resource_id) resource_id :=
  ⟨s0, wake_first_nil s0 resource_id hq, ho, hq, hr⟩

/-- A release by the owner whose first waiter is `PROCESS_WAIT` wakes it, for
both release functions. -/
theorem release_woken (s : State) (resource_id p w : Nat) (rest : List Nat)
    (hcur : s.current = some p)
    (hown : (s.resources resource_id).owner = some p)
    (hq : (s.resources resource_id).waitqueue = w :: rest)
    (hw : (s.procs w).status = ProcessStatus.PROCESS_WAIT) :
    Woken s (fcfs_release s resource_id) resource_id w rest ∧
    Woken s (prio_release s resource_id) resource_id w rest := by
  constructor
  · have h := wake_first_woken s (set_owner s resource_id none) resource_id w rest
      (by simpa [set_owner] using hq) (by simpa [set_owner] using hw)
      (by simp [set_owner]) rfl
    simpa [fcfs_release, hcur, hown] using h
  · have h := wake_first_woken s
      (set_owner (set_prio s p (s.procs p).prio_orig) resource_id none) resource_id w rest
      (by simpa [set_owner, set_prio] using hq)
      (by
        by_cases hwp : w = p
        · subst hwp
          simpa [set_owner, set_prio] using hw
        · simpa [set_owner, set_prio, Function.update_noteq hwp] using hw)
      (by simp [set_owner]) rfl
    simpa [prio_release, hcur, hown] using h

/-- Amended C3: `fcfs_release` and `prio_release`, called by the owner of the
resource, return with the owner cleared and the ready queue unchanged when the
wait queue is empty; when the wait queue is `w :: rest` and `w` has status
`PROCESS_WAIT` they return with the owner cleared, `w` set to `PROCESS_READY`,
the wait queue equal to `rest` and `w` appended at the tail of the ready queue.
Hence three releases by the respective owners, on the wait queue `[W1, W2, W3]`
and on what the previous release left of it, wake `W1`, then `W2`, then `W3`. -/
theorem release_wakes_head (s : State) (resource_id p : Nat)
    (hcur : s.current = some p)
    (hown : (s.resources resource_id).owner = some p) :
    ((s.resources resource_id).waitqueue = [] →
      ReleasedIdle s (fcfs_release s resource_id) resource_id ∧
      ReleasedIdle s (prio_release s resource_id) resource_id) ∧
    (∀ w rest, (s.resources resource_id).waitqueue = w :: rest →
      (s.procs w).status = ProcessStatus.PROCESS_WAIT →
      Woken s (fcfs_release s resource_id) resource_id w rest ∧
      Woken s (prio_release s resource_id) resource_id w rest) ∧
    (∀ (W1 W2 W3 p2 p3 : Nat) (s2 s3 : State),
      (s.resources resource_id).waitqueue = [W1, W2, W3] →
      (s.procs W1).status = ProcessStatus.PROCESS_WAIT →
      s2.current = some p2 → (s2.resources resource_id).owner = some p2 →
      (s2.resources resource_id).waitqueue = [W2, W3] →
      (s2.procs W2).status = ProcessStatus.PROCESS_WAIT →
      s3.current = some p3 → (s3.resources resource_id).owner = some p3 →
      (s3.resources resource_id).waitqueue = [W3] →
      (s3.procs W3).status = ProcessStatus.PROCESS_WAIT →
      (Woken s (fcfs_release s resource_id) resource_id W1 [W2, W3] ∧
        Woken s2 (fcfs_release s2 resource_id) resource_id W2 [W3] ∧
        Woken s3 (fcfs_release s3 resource_id) resource_id W3 []) ∧
      (Woken s (prio_release s resource_id) resource_id W1 [W2, W3] ∧
        Woken s2 (prio_release s2 resource_id) resource_id W2 [W3] ∧
        Woken s3 (prio_release s3 resource_id) resource_id W3 [])) := by
  refine ⟨?_, ?_, ?_⟩
  · intro hq
    constructor
    · have h := wake_first_idle s (set_owner s resource_id none) resource_id
        (by simpa [set_owner] using hq) (by simp [set_owner]) rfl
      simpa [fcfs_release, hcur, hown] using h
    · have h := wake_first_idle s
        (set_owner (set_prio s p (s.procs p).prio_orig) resource_id none) resource_id
        (by simpa [set_owner, set_prio] using hq) (by simp [set_owner]) rfl
      simpa [prio_release, hcur, hown] using h
  · intro w rest hq hw
    exact release_woken s resource_id p w rest hcur hown hq hw
  · intro W1 W2 W3 p2 p3 s2 s3 hq1 hw1 hc2 ho2 hq2 hw2 hc3 ho3 hq3 hw3
    have h1 := release_woken s resource_id p W1 [W2, W3] hcur hown hq1 hw1
    have h2 := release_woken s2 resource_id p2 W2 [W3] hc2 ho2 hq2 hw2
    have h3 := release_woken s3 resource_id p3 W3 [] hc3 ho3 hq3 hw3
    exact ⟨⟨h1.1, h2.1, h3.1⟩, ⟨h1.2, h2.2, h3.2⟩⟩

/-- Witness for the amended C3: process 0 releases resource 0 with waiters
`[1, 2, 3]`, then process 1 with waiters `[2, 3]`, then process 2 with waiters
`[3]`; a release by process 0 with no waiter returns as well. -/
theorem release_wakes_head_witness :
    (ReleasedIdle (ownedBy 0 []) (fcfs_release (ownedBy 0 []) 0) 0 ∧
      ReleasedIdle (ownedBy 0 []) (prio_release (ownedBy 0 []) 0) 0) ∧
    ((Woken (ownedBy 0 [1, 2, 3]) (fcfs_release (ownedBy 0 [1, 2, 3]) 0) 0 1 [2, 3] ∧
        Woken (ownedBy 1 [2, 3]) (fcfs_release (ownedBy 1 [2, 3]) 0) 0 2 [3] ∧
        Woken (ownedBy 2 [3]) (fcfs_release (ownedBy 2 [3]) 0) 0 3 []) ∧
      (Woken (ownedBy 0 [1, 2, 3]) (prio_release (ownedBy 0 [1, 2, 3]) 0) 0 1 [2, 3] ∧
        Woken (ownedBy 1 [2, 3]) (prio_release (ownedBy 1 [2, 3]) 0) 0 2 [3] ∧
        Woken (ownedBy 2 [3]) (prio_release (ownedBy 2 [3]) 0) 0 3 [])) :=
  ⟨(release_wakes_head (ownedBy 0 []) 0 0 rfl rfl).1 rfl,
   (release_wakes_head (ownedBy 0 [1, 2, 3]) 0 0 rfl rfl).2.2 1 2 3 1 2
      (ownedBy 1 [2, 3]) (ownedBy 2 [3]) rfl rfl rfl rfl rfl rfl rfl rfl rfl rfl⟩

/-- Counterexample to C3 as stated: process 0 owns resource 0 and calls release
while the head of the wait queue, process 1, is not `PROCESS_WAIT`. Both release
functions stop at the waiter-status assertion: the owner is already cleared,
process 1 is still first in the wait queue and the ready queue did not grow. -/
theorem release_stale_waiter_asserts :
    staleWaiter.current = some 0 ∧
    (staleWaiter.resources 0).owner = some 0 ∧
    (staleWaiter.resources 0).waitqueue = [1] ∧
    (∃ st, fcfs_release staleWaiter 0 = .error (Fault.assertion, st) ∧
      (st.resources 0).waitqueue = [1] ∧ st.readyqueue = [7]) ∧
    (∃ st, prio_release staleWaiter 0 = .error (Fault.assertion, st) ∧
      (st.resources 0).waitqueue = [1] ∧ st.readyqueue = [7]) ∧
    ¬ Woken staleWaiter (fcfs_release staleWaiter 0) 0 1 [] ∧
    ¬ Woken staleWaiter (prio_release staleWaiter 0) 0 1 [] := by
  have hf : fcfs_release staleWaiter 0 =
      .error (Fault.assertion, set_owner staleWaiter 0 none) := rfl
  have hp : prio_release staleWaiter 0 =
      .error (Fault.assertion,
        set_owner (set_prio staleWaiter 0 (staleWaiter.procs 0).prio_orig) 0 none) := rfl
  refine ⟨rfl, rfl, rfl, ⟨_, hf, rfl, rfl⟩, ⟨_, hp, rfl, rfl⟩, ?_, ?_⟩
  · rintro ⟨s', h, -⟩
    rw [hf] at h
    cases h
  · rintro ⟨s', h, -⟩
    rw [hp] at h
    cases h

/-- C4: when the owner of the resource is not the current process, which
includes a free resource while a process is running, `fcfs_release` and
`prio_release` stop at the ownership assertion and the state at that point is
the state of the call. -/
theorem release_by_non_owner_asserts (s : State) (resource_id : Nat)
    (hne : (s.resources resource_id).owner ≠ s.current) :
    fcfs_release s resource_id = .error (Fault.assertion, s) ∧
    prio_release s resource_id = .error (Fault.assertion, s) := by
  simp [fcfs_release, prio_release, hne]

/-- Witness for C4: in `sampleFree` resource 0 is free while process 0 runs; in
`sampleBusy` it is owned by process 1 while process 0 runs. -/
theorem release_by_non_owner_asserts_witness :
    ((sampleFree.resources 0).owner ≠ sampleFree.current ∧
      fcfs_release sampleFree 0 = .error (Fault.assertion, sampleFree) ∧
      prio_release sampleFree 0 = .error (Fault.assertion, sampleFree)) ∧
    ((sampleBusy.resources 0).owner ≠ sampleBusy.current ∧
      fcfs_release sampleBusy 0 = .error (Fault.assertion, sampleBusy) ∧
      prio_release sampleBusy 0 = .error (Fault.assertion, sampleBusy)) :=
  ⟨⟨by decide, release_by_non_owner_asserts sampleFree 0 (by decide)⟩,
   ⟨by decide, release_by_non_owner_asserts sampleBusy 0 (by decide)⟩⟩

/-! ## Scheduling -/

/-- Replacing the ready queue twice keeps the second replacement. -/
theorem set_readyqueue_twice (s : State) (q q' : List Nat) :
    set_readyqueue (set_readyqueue s q) q' = set_readyqueue s q' := rfl

/-- C5: `fifo_schedule` returns the current process and changes nothing when
that process is not `PROCESS_WAIT` and has `age < lifespan`; otherwise (no
current process, current blocked, current finished) it returns the head of the
ready queue and removes exactly the head, or returns nothing and changes
nothing when the ready queue is empty. -/
theorem fifo_schedule_contract (s : State) :
    (∀ c, s.current = some c →
      (s.procs c).status ≠ ProcessStatus.PROCESS_WAIT →
      (s.procs c).age < (s.procs c).lifespan →
      fifo_schedule s = .ok (some c, s)) ∧
    ((s.current = none ∨
      ∃ c, s.current = some c ∧
        ((s.procs c).status = ProcessStatus.PROCESS_WAIT ∨
          ¬ (s.procs c).age < (s.procs c).lifespan)) →
      (∀ h t, s.readyqueue = h :: t →
        fifo_schedule s = .ok (some h, set_readyqueue s t)) ∧
      (s.readyqueue = [] → fifo_schedule s = .ok (none, s))) := by
  have hpick : fifo_schedule s = pick_next s →
      (∀ h t, s.readyqueue = h :: t →
        fifo_schedule s = .ok (some h, set_readyqueue s t)) ∧
      (s.readyqueue = [] → fifo_schedule s = .ok (none, s)) := by
    intro hp
    constructor
    · intro h t hq
      rw [hp]
      simp [pick_next, hq, list_del_init]
    · intro hq
      rw [hp]
      simp [pick_next, hq]
  constructor
  · intro c hc hs ha
    simp [fifo_schedule, hc, hs, ha]
  · intro hdec
    apply hpick
    rcases hdec with hnone | ⟨c, hc, hw | hfin⟩
    · simp [fifo_schedule, hnone]
    · simp [fifo_schedule, hc, hw]
    · by_cases hw : (s.procs c).status = ProcessStatus.PROCESS_WAIT
      · simp [fifo_schedule, hc, hw]
      · simp [fifo_schedule, hc, hw, hfin]

/-- Witness for C5: a running unfinished process is kept; a finished one, a
blocked one or no process at all makes the head of `[1, 2]` run and leaves
`[2]`; with an empty ready queue nothing is returned. -/
theorem fifo_schedule_contract_witness :
    fifo_schedule (mkState (sjfTable 2 0 0) (some 0) [1, 2]) =
      .ok (some 0, mkState (sjfTable 2 0 0) (some 0) [1, 2]) ∧
    fifo_schedule (mkState (sjfTable 5 0 0) (some 0) [1, 2]) =
      .ok (some 1, set_readyqueue (mkState (sjfTable 5 0 0) (some 0) [1, 2]) [2]) ∧
    fifo_schedule (mkState (sjfTable 0 0 0) none [1, 2]) =
      .ok (some 1, set_readyqueue (mkState (sjfTable 0 0 0) none [1, 2]) [2]) ∧
    fifo_schedule (mkState (sjfTable 5 0 0) (some 0) []) =
      .ok (none, mkState (sjfTable 5 0 0) (some 0) []) :=
  ⟨(fifo_schedule_contract (mkState (sjfTable 2 0 0) (some 0) [1, 2])).1 0 rfl
      (by decide) (by decide),
   ((fifo_schedule_contract (mkState (sjfTable 5 0 0) (some 0) [1, 2])).2
      (Or.inr ⟨0, rfl, Or.inr (by decide)⟩)).1 1 [2] rfl,
   ((fifo_schedule_contract (mkState (sjfTable 0 0 0) none [1, 2])).2
      (Or.inl rfl)).1 1 [2] rfl,
   ((fifo_schedule_contract (mkState (sjfTable 5 0 0) (some 0) [])).2
      (Or.inr ⟨0, rfl, Or.inr (by decide)⟩)).2 rfl⟩

/-- C6, evaluation of `sjf_schedule` on the ready queue with lifespans
`[5, 3, 1]`: the first decision returns the 1-tick process, the second the
3-tick process, and the third decision, with only the 5-tick process ready,
dereferences `sjfSmallest = NULL`. The same happens on any ready queue whose
first process is a shortest one, such as a single ready process or the
lifespans `[1, 3, 5]`. -/
theorem sjf_schedule_faults_when_head_is_shortest :
    (∃ s1, sjf_schedule (mkState (sjfTable 0 0 0) none [0, 1, 2]) = .ok (some 2, s1) ∧
      s1.readyqueue = [0, 1]) ∧
    (∃ s2, sjf_schedule (mkState (sjfTable 0 0 1) (some 2) [0, 1]) = .ok (some 1, s2) ∧
      s2.readyqueue = [0]) ∧
    sjf_schedule (mkState (sjfTable 0 3 1) (some 1) [0]) =
      .error (Fault.nullDeref, mkState (sjfTable 0 3 1) (some 1) [0]) ∧
    sjf_schedule (mkState (sjfTable 0 0 0) none [0]) =
      .error (Fault.nullDeref, mkState (sjfTable 0 0 0) none [0]) ∧
    sjf_schedule (mkState (sjfTable 0 0 0) none [2, 1, 0]) =
      .error (Fault.nullDeref, mkState (sjfTable 0 0 0) none [2, 1, 0]) :=
  ⟨⟨_, rfl, rfl⟩, ⟨_, rfl, rfl⟩, rfl, rfl, rfl⟩

/-- C7, evaluation of `srtf_schedule` on `srtfLate`: the running process 0 has
1 tick left (lifespan 10, age 9), the ready process 1 has 5 ticks left
(lifespan 5, age 0); the call returns process 1 and leaves process 0 in the
ready queue, because the lifespans 5 and 10 are compared. -/
theorem srtf_schedule_compares_lifespan :
    srtfLate.current = some 0 ∧ srtfLate.readyqueue = [1] ∧
    (srtfLate.procs 0).age < (srtfLate.procs 0).lifespan ∧
    (srtfLate.procs 0).lifespan - (srtfLate.procs 0).age = 1 ∧
    (srtfLate.procs 1).lifespan - (srtfLate.procs 1).age = 5 ∧
    (∃ s', srtf_schedule srtfLate = .ok (some 1, s') ∧ s'.readyqueue = [0]) :=
  ⟨rfl, rfl, by decide, rfl, rfl, ⟨_, rfl, rfl⟩⟩

/-- C8: with the ready queue `h :: t`, `rr_schedule` returns `h`; when the
current process has `age < lifespan` (and is not blocked) the ready queue
becomes `t` with the current process appended at the tail, and the returned
process differs from the current one as long as the current one was not itself
in the ready queue; without a current process, or with a finished one, the
ready queue becomes `t`. -/
theorem rr_schedule_rotates (s : State) (h : Nat) (t : List Nat)
    (hq : s.readyqueue = h :: t) :
    (∀ c, s.current = some c →
      (s.procs c).status ≠ ProcessStatus.PROCESS_WAIT →
      (s.procs c).age < (s.procs c).lifespan →
      rr_schedule s = .ok (some h, set_readyqueue s (t ++ [c])) ∧
      (c ∉ s.readyqueue → ∀ r s', rr_schedule s = .ok (r, s') → r ≠ some c)) ∧
    (s.current = none → rr_schedule s = .ok (some h, set_readyqueue s t)) ∧
    (∀ c, s.current = some c → ¬ (s.procs c).age < (s.procs c).lifespan →
      rr_schedule s = .ok (some h, set_readyqueue s t)) := by
  refine ⟨?_, ?_, ?_⟩
  · intro c hc _ ha
    have hrun : rr_schedule s = .ok (some h, set_readyqueue s (t ++ [c])) := by
      simp [rr_schedule, hq, hc, ha, list_add_tail, list_del_init, set_readyqueue]
    refine ⟨hrun, ?_⟩
    intro hnot r s' hr
    rw [hrun] at hr
    injection hr with hr
    injection hr with hr _
    rw [← hr]
    intro hsame
    injection hsame with hsame
    apply hnot
    rw [hq, ← hsame]
    exact List.mem_cons_self h t
  · intro hc
    simp [rr_schedule, hq, hc, list_del_init]
  · intro c hc ha
    simp [rr_schedule, hq, hc, ha, list_del_init]

/-- Witness for C8 on the ready queue `[1, 2]`: with process 0 running and
unfinished the result is process 1 and the queue `[2, 0]`; with no process or a
finished process 0 the result is process 1 and the queue `[2]`. -/
theorem rr_schedule_rotates_witness :
    (rr_schedule (mkState (sjfTable 2 0 0) (some 0) [1, 2]) =
        .ok (some 1, set_readyqueue (mkState (sjfTable 2 0 0) (some 0) [1, 2]) [2, 0]) ∧
      (0 ∉ (mkState (sjfTable 2 0 0) (some 0) [1, 2]).readyqueue →
        ∀ r s', rr_schedule (mkState (sjfTable 2 0 0) (some 0) [1, 2]) = .ok (r, s') →
          r ≠ some 0)) ∧
    rr_schedule (mkState (sjfTable 0 0 0) none [1, 2]) =
      .ok (some 1, set_readyqueue (mkState (sjfTable 0 0 0) none [1, 2]) [2]) ∧
    rr_schedule (mkState (sjfTable 5 0 0) (some 0) [1, 2]) =
      .ok (some 1, set_readyqueue (mkState (sjfTable 5 0 0) (some 0) [1, 2]) [2]) :=
  ⟨(rr_schedule_rotates (mkState (sjfTable 2 0 0) (some 0) [1, 2]) 1 [2] rfl).1 0 rfl
      (by decide) (by decide),
   (rr_schedule_rotates (mkState (sjfTable 0 0 0) none [1, 2]) 1 [2] rfl).2.1 rfl,
   (rr_schedule_rotates (mkState (sjfTable 5 0 0) (some 0) [1, 2]) 1 [2] rfl).2.2 0 rfl
      (by decide)⟩

/-- C9, evaluation of `rr_schedule` with an empty ready queue and no current
process: the call reads `current->age` through `current = NULL` and ends with
a fault instead of returning nothing. -/
theorem rr_schedule_idle_faults :
    idleState.current = none ∧ idleState.readyqueue = [] ∧
    rr_schedule idleState = .error (Fault.nullDeref, idleState) :=
  ⟨rfl, rfl, rfl⟩

/-- C10, evaluation of `prio_schedule` after a failed acquire: process 0
(priority 5) requests resource 0 owned by the ready process 1 (priority 1);
`fcfs_acquire` returns false, process 0 is `PROCESS_WAIT` and sits in the wait
queue; the following `prio_schedule` returns the blocked process 0, which is
not a candidate, instead of process 1. -/
theorem prio_schedule_returns_blocked_current :
    ∃ s1 s2, fcfs_acquire prioContended 0 = .ok (false, s1) ∧
      s1.current = some 0 ∧
      (s1.procs 0).status = ProcessStatus.PROCESS_WAIT ∧
      (s1.resources 0).waitqueue = [0] ∧
      s1.readyqueue = [1] ∧
      prio_schedule s1 = .ok (some 0, s2) ∧
      s2.readyqueue = [1] :=
  ⟨_, _, rfl, rfl, rfl, rfl, rfl, rfl, rfl⟩

/-! ## Priorities under the ceiling and inheritance protocols -/

/-- C11: `pcp_acquire` on a free resource sets the priority of the current
process to `MAX_PRIO` and keeps its base priority `prio_orig`; `pcp_acquire`
on a busy resource changes the priority of no process. -/
theorem pcp_acquire_priority ( MAX_PRIO : Nat) (s : State) (resource_id p : Nat)
    (hcur : s.current = some p) :
    ((s.resources resource_id).owner = none →
      ∃ s', pcp_acquire MAX_PRIO s resource_id = .ok (true, s') ∧
        (s'.procs p).prio = MAX_PRIO ∧
        (s'.procs p).prio_orig = (s.procs p).prio_orig) ∧
    (∀ o, (s.resources resource_id).owner = some o →
      ∃ s', pcp_acquire MAX_PRIO s resource_id = .ok (false, s') ∧
        ∀ q, (s'.procs q).prio = (s.procs q).prio) := by
  constructor
  · intro hfree
    refine ⟨set_prio (set_owner s resource_id s.current) p MAX_PRIO, ?_, ?_, ?_⟩
    · simp only [pcp_acquire, hfree, set_owner, hcur]
    · simp [set_prio]
    · simp [set_prio, set_owner]
  · intro o hbusy
    refine ⟨set_waitqueue (set_status s p ProcessStatus.PROCESS_WAIT) resource_id
      (list_add_tail p (s.resources resource_id).waitqueue), ?_, ?_⟩
    · simp only [pcp_acquire, hbusy, block_current, hcur, set_status]
    · intro q
      by_cases hq : q = p
      · subst hq
        simp [set_waitqueue, set_status]
      · simp [set_waitqueue, set_status, Function.update_noteq hq]

/-- Witness for C11: process 0 acquires the free resource 0 of `sampleFree`
and is blocked on the busy resource 0 of `sampleBusy`. -/
theorem pcp_acquire_priority_witness :
    (∃ s', pcp_acquire 64 sampleFree 0 = .ok (true, s') ∧
      (s'.procs 0).prio = 64 ∧
      (s'.procs 0).prio_orig = (sampleFree.procs 0).prio_orig) ∧
    (∃ s', pcp_acquire 64 sampleBusy 0 = .ok (false, s') ∧
      ∀ q, (s'.procs q).prio = (sampleBusy.procs q).prio) :=
  ⟨(pcp_acquire_priority 64 sampleFree 0 0 rfl).1 rfl,
   (pcp_acquire_priority 64 sampleBusy 0 0 rfl).2 1 rfl⟩

/-- The wake-up step never writes a priority or a base priority, whether it
returns or stops at the assertion. -/
theorem wake_first_keeps_prio (s : State) (resource_id q : Nat) :
    ((endState (wake_first s resource_id)).procs q).prio = (s.procs q).prio ∧
    ((endState (wake_first s resource_id)).procs q).prio_orig = (s.procs q).prio_orig := by
  unfold wake_first
  split
  · exact ⟨rfl, rfl⟩
  · rename_i waiter rest _
    split
    · by_cases hq : q = waiter
      · subst hq
        simp [endState, set_readyqueue, set_status, set_waitqueue]
      · simp [endState, set_readyqueue, set_status, set_waitqueue,
          Function.update_noteq hq]
    · exact ⟨rfl, rfl⟩

/-- The wake-up step returns when nobody waits or the first waiter is
`PROCESS_WAIT`. -/
theorem wake_first_returns (s : State) (resource_id : Nat)
    (hw : ∀ w rest, (s.resources resource_id).waitqueue = w :: rest →
      (s.procs w).status = ProcessStatus.PROCESS_WAIT) :
    ∃ s', wake_first s resource_id = .ok ((), s') := by
  cases hq : (s.resources resource_id).waitqueue with
  | nil => exact ⟨s, wake_first_nil s resource_id hq⟩
  | cons w rest => exact ⟨_, wake_first_cons s resource_id w rest hq (hw w rest hq)⟩

/-- C12: `prio_release` called by the owner `p` ends in a state where the
priority of `p` equals its base priority `prio_orig`, whatever the priority was
before, where the base priority is unchanged and where every other process has
the priority it had; the call returns whenever the wait queue is empty or its
first process is `PROCESS_WAIT`. -/
theorem prio_release_restores_priority (s : State) (resource_id p : Nat)
    (hcur : s.current = some p)
    (hown : (s.resources resource_id).owner = some p) :
    ((endState (prio_release s resource_id)).procs p).prio = (s.procs p).prio_orig ∧
    ((endState (prio_release s resource_id)).procs p).prio_orig = (s.procs p).prio_orig ∧
    (∀ q, q ≠ p →
      ((endState (prio_release s resource_id)).procs q).prio = (s.procs q).prio) ∧
    ((∀ w rest, (s.resources resource_id).waitqueue = w :: rest →
        (s.procs w).status = ProcessStatus.PROCESS_WAIT) →
      ∃ s', prio_release s resource_id = .ok ((), s')) := by
  have hrel : prio_release s resource_id =
      wake_first (set_owner (set_prio s p (s.procs p).prio_orig) resource_id none)
        resource_id := by
    simp [prio_release, hcur, hown]
  rw [hrel]
  refine ⟨?_, ?_, ?_, ?_⟩
  · rw [(wake_first_keeps_prio _ resource_id p).1]
    simp [set_owner, set_prio]
  · rw [(wake_first_keeps_prio _ resource_id p).2]
    simp [set_owner, set_prio]
  · intro q hq
    rw [(wake_first_keeps_prio _ resource_id q).1]
    simp [set_owner, set_prio, Function.update_noteq hq]
  · intro hw
    apply wake_first_returns
    intro w rest hq
    have hq' : (s.resources resource_id).waitqueue = w :: rest := by
      simpa [set_owner, set_prio] using hq
    have hst := hw w rest hq'
    by_cases hwp : w = p
    · subst hwp
      simpa [set_owner, set_prio] using hst
    · simpa [set_owner, set_prio, Function.update_noteq hwp] using hst

/-- Witness for C12 on `boostedOwner`: process 0 releases resource 0 with
priority 64 and base priority 2; afterwards its priority is 2, the priorities
9 and 3 of the other processes are unchanged, and the call returns. -/
theorem prio_release_restores_priority_witness :
    (boostedOwner.procs 0).prio = 64 ∧ (boostedOwner.procs 0).prio_orig = 2 ∧
    ((endState (prio_release boostedOwner 0)).procs 0).prio =
      (boostedOwner.procs 0).prio_orig ∧
    ((endState (prio_release boostedOwner 0)).procs 0).prio_orig =
      (boostedOwner.procs 0).prio_orig ∧
    (∀ q, q ≠ 0 →
      ((endState (prio_release boostedOwner 0)).procs q).prio =
        (boostedOwner.procs q).prio) ∧
    (∃ s', prio_release boostedOwner 0 = .ok ((), s')) :=
  have h := prio_release_restores_priority boostedOwner 0 0 rfl rfl
  ⟨rfl, rfl, h.1, h.2.1, h.2.2.1, h.2.2.2 (by
    intro w rest hq
    have hw : w = 1 := by
      have h1 : [1] = w :: rest := hq
      injection h1 with h1 _
      exact h1.symm
    subst hw
    rfl)⟩

/-- C13, evaluation of `pip_acquire` on `prioContended`: process 0 (priority
5) requests resource 0 held by process 1 (priority 1). The call returns false
and blocks process 0, and the priority of the holder is still 1, not
`max 1 5 = 5`. -/
theorem pip_acquire_does_not_donate :
    prioContended.current = some 0 ∧
    (prioContended.resources 0).owner = some 1 ∧
    (prioContended.procs 0).prio = 5 ∧ (prioContended.procs 1).prio = 1 ∧
    (∃ s', pip_acquire prioContended 0 = .ok (false, s') ∧
      (s'.procs 0).status = ProcessStatus.PROCESS_WAIT ∧
      (s'.resources 0).waitqueue = [0] ∧
      (s'.procs 1).prio = 1 ∧
      (s'.procs 1).prio ≠ max (prioContended.procs 1).prio (prioContended.procs 0).prio) :=
  ⟨rfl, rfl, rfl, rfl, ⟨_, rfl, rfl, rfl, rfl, by decide⟩⟩

/-! ## Blocked processes, round trips and ties -/

/-- C14, evaluation of the schedulers after a failed acquire: process 0
requests resource 0 of `prioContended`, `pcp_acquire` returns false, process 0
is `PROCESS_WAIT` and first in the wait queue. `rr_schedule` and
`srtf_schedule` then put process 0 into the ready queue while it is still in
the wait queue, and `prio_schedule` and `sjf_schedule` return the blocked
process 0; `fifo_schedule` returns process 1 and queues nothing. -/
theorem schedule_requeues_blocked_current :
    ∃ s1, pcp_acquire 64 prioContended 0 = .ok (false, s1) ∧
      s1.current = some 0 ∧
      (s1.procs 0).status = ProcessStatus.PROCESS_WAIT ∧
      (s1.resources 0).waitqueue = [0] ∧
      s1.readyqueue = [1] ∧
      (∃ s2, rr_schedule s1 = .ok (some 1, s2) ∧
        s2.readyqueue = [0] ∧ (s2.resources 0).waitqueue = [0]) ∧
      (∃ s2, srtf_schedule s1 = .ok (some 1, s2) ∧
        s2.readyqueue = [0] ∧ (s2.resources 0).waitqueue = [0]) ∧
      (∃ s2, prio_schedule s1 = .ok (some 0, s2) ∧ (s2.resources 0).waitqueue = [0]) ∧
      (∃ s2, sjf_schedule s1 = .ok (some 0, s2) ∧ (s2.resources 0).waitqueue = [0]) ∧
      (∃ s2, fifo_schedule s1 = .ok (some 1, s2) ∧
        s2.readyqueue = [] ∧ (s2.resources 0).waitqueue = [0]) :=
  ⟨_, rfl, rfl, rfl, rfl, rfl, ⟨_, rfl, rfl, rfl⟩, ⟨_, rfl, rfl, rfl⟩, ⟨_, rfl, rfl⟩,
    ⟨_, rfl, rfl⟩, ⟨_, rfl, rfl, rfl⟩⟩

/-- A resource record is determined by its owner and its wait queue. -/
theorem resource_eq_of_fields (r r' : Resource)
    (ho : r.owner = r'.owner) (hq : r.waitqueue = r'.waitqueue) : r = r' := by
  cases r
  cases r'
  simp_all

/-- C15: on a resource that is free and has an empty wait queue, an acquire
followed by the release of the same policy, both called by the current process,
returns true and then returns, and leaves the resource equal to what it was
(no owner, empty wait queue) and the ready queue unchanged; this holds for
`fcfs_acquire`/`fcfs_release`, `pcp_acquire`/`prio_release` and
`pip_acquire`/`prio_release`. -/
theorem acquire_release_round_trip ( MAX_PRIO : Nat) (s : State) (resource_id p : Nat)
    (hcur : s.current = some p)
    (hfree : (s.resources resource_id).owner = none)
    (hempty : (s.resources resource_id).waitqueue = []) :
    (∃ s1 s2, fcfs_acquire s resource_id = .ok (true, s1) ∧
      fcfs_release s1 resource_id = .ok ((), s2) ∧
      s2.resources resource_id = s.resources resource_id ∧
      (s2.resources resource_id).owner = none ∧
      (s2.resources resource_id).waitqueue = [] ∧
      s2.readyqueue = s.readyqueue) ∧
    (∃ s1 s2, pcp_acquire MAX_PRIO s resource_id = .ok (true, s1) ∧
      prio_release s1 resource_id = .ok ((), s2) ∧
      s2.resources resource_id = s.resources resource_id ∧
      (s2.resources resource_id).owner = none ∧
      (s2.resources resource_id).waitqueue = [] ∧
      s2.readyqueue = s.readyqueue) ∧
    (∃ s1 s2, pip_acquire s resource_id = .ok (true, s1) ∧
      prio_release s1 resource_id = .ok ((), s2) ∧
      s2.resources resource_id = s.resources resource_id ∧
      (s2.resources resource_id).owner = none ∧
      (s2.resources resource_id).waitqueue = [] ∧
      s2.readyqueue = s.readyqueue) := by
  refine ⟨⟨set_owner s resource_id (some p),
      set_owner (set_owner s resource_id (some p)) resource_id none, ?_, ?_, ?_, ?_, ?_, rfl⟩,
    ⟨set_prio (set_owner s resource_id (some p)) p MAX_PRIO,
      set_owner (set_prio (set_prio (set_owner s resource_id (some p)) p MAX_PRIO) p
        ((set_prio (set_owner s resource_id (some p)) p MAX_PRIO).procs p).prio_orig)
        resource_id none, ?_, ?_, ?_, ?_, ?_, rfl⟩,
    ⟨set_owner s resource_id (some p),
      set_owner (set_prio (set_owner s resource_id (some p)) p
        ((set_owner s resource_id (some p)).procs p).prio_orig) resource_id none,
      ?_, ?_, ?_, ?_, ?_, rfl⟩⟩
  · simp [fcfs_acquire, hfree, hcur]
  · have hq : ((set_owner (set_owner s resource_id (some p)) resource_id none).resources
        resource_id).waitqueue = [] := by
      simpa [set_owner] using hempty
    have h := wake_first_nil _ resource_id hq
    simpa [fcfs_release, set_owner, hcur] using h
  · apply resource_eq_of_fields
    · simp [set_owner, hfree]
    · simp [set_owner]
  · simp [set_owner]
  · simpa [set_owner] using hempty
  · simp only [pcp_acquire, hfree, set_owner, hcur]
  · have hq : ((set_owner (set_prio (set_prio (set_owner s resource_id (some p)) p MAX_PRIO) p
        ((set_prio (set_owner s resource_id (some p)) p MAX_PRIO).procs p).prio_orig)
        resource_id none).resources resource_id).waitqueue = [] := by
      simpa [set_owner, set_prio] using hempty
    have h := wake_first_nil _ resource_id hq
    simpa [prio_release, set_owner, set_prio, hcur] using h
  · apply resource_eq_of_fields
    · simp [set_owner, set_prio, hfree]
    · simp [set_owner, set_prio]
  · simp [set_owner, set_prio]
  · simpa [set_owner, set_prio] using hempty
  · simp [pip_acquire, hfree, hcur]
  · have hq : ((set_owner (set_prio (set_owner s resource_id (some p)) p
        ((set_owner s resource_id (some p)).procs p).prio_orig) resource_id none).resources
        resource_id).waitqueue = [] := by
      simpa [set_owner, set_prio] using hempty
    have h := wake_first_nil _ resource_id hq
    simpa [prio_release, set_owner, set_prio, hcur] using h
  · apply resource_eq_of_fields
    · simp [set_owner, set_prio, hfree]
    · simp [set_owner, set_prio]
  · simp [set_owner, set_prio]
  · simpa [set_owner, set_prio] using hempty

/-- Witness for C15: process 0 acquires and releases the free resource 0 of
`sampleFree` under each of the three policies. -/
theorem acquire_release_round_trip_witness :
    (∃ s1 s2, fcfs_acquire sampleFree 0 = .ok (true, s1) ∧
      fcfs_release s1 0 = .ok ((), s2) ∧
      s2.resources 0 = sampleFree.resources 0 ∧
      (s2.resources 0).owner = none ∧
      (s2.resources 0).waitqueue = [] ∧
      s2.readyqueue = sampleFree.readyqueue) ∧
    (∃ s1 s2, pcp_acquire 64 sampleFree 0 = .ok (true, s1) ∧
      prio_release s1 0 = .ok ((), s2) ∧
      s2.resources 0 = sampleFree.resources 0 ∧
      (s2.resources 0).owner = none ∧
      (s2.resources 0).waitqueue = [] ∧
      s2.readyqueue = sampleFree.readyqueue) ∧
    (∃ s1 s2, pip_acquire sampleFree 0 = .ok (true, s1) ∧
      prio_release s1 0 = .ok ((), s2) ∧
      s2.resources 0 = sampleFree.resources 0 ∧
      (s2.resources 0).owner = none ∧
      (s2.resources 0).waitqueue = [] ∧
      s2.readyqueue = sampleFree.readyqueue) :=
  acquire_release_round_trip 64 sampleFree 0 0 rfl rfl rfl

/-- C16, evaluation of `sjf_schedule` after a failed acquire: process 0 of
`prioContended` requests resource 0, `fcfs_acquire` returns false and process 0
is `PROCESS_WAIT` in the wait queue with `age < lifespan`; `sjf_schedule`
returns the blocked process 0 and leaves the ready process 1 where it is. -/
theorem sjf_schedule_returns_blocked_current :
    ∃ s1 s2, fcfs_acquire prioContended 0 = .ok (false, s1) ∧
      s1.current = some 0 ∧
      (s1.procs 0).status = ProcessStatus.PROCESS_WAIT ∧
      (s1.resources 0).waitqueue = [0] ∧
      (s1.procs 0).age < (s1.procs 0).lifespan ∧
      sjf_schedule s1 = .ok (some 0, s2) ∧
      s2.readyqueue = [1] :=
  ⟨_, _, rfl, rfl, rfl, rfl, by decide, rfl, rfl⟩

/-- C17, evaluation of `srtf_schedule` on a tie with the head of the ready
queue: process 0 runs, process 1 is the only ready process, both have lifespan
6. Whether both have run one tick (equal remaining time as well) or process 1
has not run yet (process 0 has less remaining time), the call returns process 1
and puts the running process 0 into the ready queue. -/
theorem srtf_schedule_tie_with_head_preempts :
    (srtfTie 1 1).current = some 0 ∧ (srtfTie 1 1).readyqueue = [1] ∧
    ((srtfTie 1 1).procs 0).age < ((srtfTie 1 1).procs 0).lifespan ∧
    ((srtfTie 1 1).procs 0).lifespan = ((srtfTie 1 1).procs 1).lifespan ∧
    ((srtfTie 1 1).procs 0).age = ((srtfTie 1 1).procs 1).age ∧
    (∃ s', srtf_schedule (srtfTie 1 1) = .ok (some 1, s') ∧ s'.readyqueue = [0]) ∧
    (∃ s', srtf_schedule (srtfTie 1 0) = .ok (some 1, s') ∧ s'.readyqueue = [0]) :=
  ⟨rfl, rfl, by decide, rfl, rfl, ⟨_, rfl, rfl⟩, ⟨_, rfl, rfl⟩⟩

/-! ## Selection loops -/

/-- The loop of `srtf_schedule` ends on the start value or on a member of the
queue, and on a lifespan no larger than that of the start value and of every
member. -/
theorem srtf_fold_spec (s : State) (l : List Nat) (init : Nat) :
    (l.foldl (srtf_step s) init = init ∨ l.foldl (srtf_step s) init ∈ l) ∧
    (s.procs (l.foldl (srtf_step s) init)).lifespan ≤ (s.procs init).lifespan ∧
    ∀ x ∈ l, (s.procs (l.foldl (srtf_step s) init)).lifespan ≤ (s.procs x).lifespan := by
  induction l generalizing init with
  | nil => simp
  | cons x xs ih =>
    obtain ⟨hmem, hle, hall⟩ := ih (srtf_step s init x)
    have hstep : (srtf_step s init x = init ∨ srtf_step s init x = x) ∧
        (s.procs (srtf_step s init x)).lifespan ≤ (s.procs init).lifespan ∧
        (s.procs (srtf_step s init x)).lifespan ≤ (s.procs x).lifespan := by
      unfold srtf_step
      split
      · rename_i hlt
        exact ⟨Or.inr rfl, le_of_lt hlt, le_refl _⟩
      · rename_i hge
        exact ⟨Or.inl rfl, le_refl _, not_lt.mp hge⟩
    obtain ⟨hwhich, hle_init, hle_x⟩ := hstep
    simp only [List.foldl_cons]
    refine ⟨?_, le_trans hle hle_init, ?_⟩
    · rcases hmem with h | h
      · rcases hwhich with h' | h'
        · exact Or.inl (h.trans h')
        · exact Or.inr (by rw [h, h']; exact List.mem_cons_self _ _)
      · exact Or.inr (List.mem_cons_of_mem _ h)
    · intro y hy
      rcases List.mem_cons.mp hy with h | h
      · rw [h]
        exact le_trans hle hle_x
      · exact hall y h

/-- A process of strictly higher priority replaces `highest`. -/
theorem prio_step_of_gt (s : State) (highest prioProc : Nat)
    (h : (s.procs prioProc).prio > (s.procs highest).prio) :
    prio_step s highest prioProc = prioProc := by
  unfold prio_step
  exact if_pos h

/-- A process of equal or lower priority leaves `highest` as it is. -/
theorem prio_step_of_not_gt (s : State) (highest prioProc : Nat)
    (h : ¬ (s.procs prioProc).prio > (s.procs highest).prio) :
    prio_step s highest prioProc = highest := by
  unfold prio_step
  exact if_neg h

/-- The loop of `prio_schedule` ends on the start value or on a member of the
queue. -/
theorem prio_fold_mem (s : State) (l : List Nat) (init : Nat) :
    l.foldl (prio_step s) init = init ∨ l.foldl (prio_step s) init ∈ l := by
  induction l generalizing init with
  | nil => simp
  | cons x xs ih =>
    have hstep : prio_step s init x = init ∨ prio_step s init x = x := by
      unfold prio_step
      split
      · exact Or.inr rfl
      · exact Or.inl rfl
    simp only [List.foldl_cons]
    rcases ih (prio_step s init x) with h | h
    · rcases hstep with h' | h'
      · exact Or.inl (h.trans h')
      · exact Or.inr (by rw [h, h']; exact List.mem_cons_self _ _)
    · exact Or.inr (List.mem_cons_of_mem _ h)

/-- Replacing the ready queue by itself changes nothing. -/
theorem set_readyqueue_self (s : State) (q : List Nat) (hq : s.readyqueue = q) :
    set_readyqueue s q = s := by
  cases s
  simp_all [set_readyqueue]

/-- When the current process has `age < lifespan` and a priority strictly
above that of every ready process, `prio_schedule` returns it and leaves the
state as it was. -/
theorem prio_schedule_keeps_strict_max (s : State) (c : Nat)
    (hcur : s.current = some c)
    (hage : (s.procs c).age < (s.procs c).lifespan)
    (hready : ∀ q ∈ s.readyqueue, (s.procs q).prio < (s.procs c).prio) :
    prio_schedule s = .ok (some c, s) := by
  cases hq : s.readyqueue with
  | nil => simp [prio_schedule, hcur, hq, hage]
  | cons first rest =>
    have hc : c ∉ first :: rest := by
      intro hmem
      exact lt_irrefl _ (hready c (by rw [hq]; exact hmem))
    have hm : (s.procs ((first :: rest).foldl (prio_step s) first)).prio <
        (s.procs c).prio := by
      rcases prio_fold_mem s (first :: rest) first with h | h
      · rw [h]
        exact hready first (by rw [hq]; exact List.mem_cons_self _ _)
      · exact hready _ (by rw [hq]; exact h)
    have hfold : (first :: rest ++ [c]).foldl (prio_step s) first = c := by
      rw [List.foldl_append]
      exact prio_step_of_gt s _ c hm
    have herase : (first :: rest ++ [c]).erase c = first :: rest := by
      rw [List.erase_append_right _ hc]
      simp
    have hstep : prio_schedule s =
        .ok (some c, set_readyqueue (set_readyqueue s (first :: rest ++ [c]))
          ((first :: rest ++ [c]).erase c)) := by
      have hfold' : (first :: rest ++ [c]).foldl
          (prio_step (set_readyqueue s (first :: rest ++ [c]))) first = c := hfold
      have hle : ((set_readyqueue s (first :: rest ++ [c])).procs c).age ≤
          ((set_readyqueue s (first :: rest ++ [c])).procs c).lifespan := le_of_lt hage
      simp only [prio_schedule, hcur, hq, hage, if_true, list_add_tail, list_del_init]
      have hrq : (set_readyqueue s (first :: rest ++ [c])).readyqueue =
          first :: rest ++ [c] := rfl
      rw [hrq, hfold', if_pos hle]
    rw [hstep, herase, set_readyqueue_twice, set_readyqueue_self s _ hq]

/-! ## Preemption -/

/-- Amended C18: when the current process is runnable, the ready queue holds a
new process (age 0) whose remaining time `lifespan - age` is strictly below the
remaining time of the current process, and every ready process has
`age ≤ lifespan`, `srtf_schedule` returns a ready process different from the
current one and the current process is in the ready queue afterwards. -/
theorem srtf_preempts_for_new_shorter (s : State) (c n : Nat)
    (hcur : s.current = some c)
    (_hrun : (s.procs c).status ≠ ProcessStatus.PROCESS_WAIT)
    (hage : (s.procs c).age < (s.procs c).lifespan)
    (hn : n ∈ s.readyqueue)
    (hnew : (s.procs n).age = 0)
    (hshort : (s.procs n).lifespan - (s.procs n).age <
      (s.procs c).lifespan - (s.procs c).age)
    (hwf : ∀ q ∈ s.readyqueue, (s.procs q).age ≤ (s.procs q).lifespan) :
    ∃ r s', srtf_schedule s = .ok (some r, s') ∧ r ≠ c ∧ r ∈ s.readyqueue ∧
      c ∈ s'.readyqueue := by
  cases hq : s.readyqueue with
  | nil => rw [hq] at hn; cases hn
  | cons first rest =>
    rw [hq] at hn hwf
    obtain ⟨hmem, _, hall⟩ := srtf_fold_spec s (c :: first :: rest) first
    have hlt : (s.procs n).lifespan < (s.procs c).lifespan := by
      rw [hnew] at hshort
      omega
    have hsmall : (s.procs ((c :: first :: rest).foldl (srtf_step s) first)).lifespan <
        (s.procs c).lifespan :=
      lt_of_le_of_lt (hall n (List.mem_cons_of_mem _ hn)) hlt
    have hne : (c :: first :: rest).foldl (srtf_step s) first ≠ c := by
      intro h
      rw [h] at hsmall
      exact lt_irrefl _ hsmall
    have hin : (c :: first :: rest).foldl (srtf_step s) first ∈ first :: rest := by
      rcases hmem with h | h
      · rw [h]
        exact List.mem_cons_self _ _
      · rcases List.mem_cons.mp h with h' | h'
        · exact absurd h' hne
        · exact h'
    have hle := hwf _ hin
    refine ⟨(c :: first :: rest).foldl (srtf_step s) first,
      set_readyqueue (set_readyqueue s (c :: first :: rest))
        ((c :: first :: rest).erase ((c :: first :: rest).foldl (srtf_step s) first)),
      ?_, hne, hin, ?_⟩
    · have hfold' : (c :: first :: rest).foldl
          (srtf_step (set_readyqueue s (c :: first :: rest))) first =
          (c :: first :: rest).foldl (srtf_step s) first := rfl
      have hle' : ((set_readyqueue s (c :: first :: rest)).procs
          ((c :: first :: rest).foldl (srtf_step s) first)).age ≤
          ((set_readyqueue s (c :: first :: rest)).procs
          ((c :: first :: rest).foldl (srtf_step s) first)).lifespan := hle
      have hrq : (set_readyqueue s (c :: first :: rest)).readyqueue =
          c :: first :: rest := rfl
      simp only [srtf_schedule, hcur, hq, hage, if_true, list_add, list_del_init]
      rw [hrq, hfold', if_pos hle']
    · show c ∈ (c :: first :: rest).erase ((c :: first :: rest).foldl (srtf_step s) first)
      rw [List.erase_cons_tail (by simpa using hne.symm)]
      exact List.mem_cons_self _ _

/-- Witness for the amended C18 on `srtfArrival`: process 0 has 8 ticks left,
the new process 1 needs 3; the call returns process 1 and keeps process 0 in
the ready queue. -/
theorem srtf_preempts_for_new_shorter_witness :
    ∃ r s', srtf_schedule srtfArrival = .ok (some r, s') ∧ r ≠ 0 ∧
      r ∈ srtfArrival.readyqueue ∧ 0 ∈ s'.readyqueue :=
  srtf_preempts_for_new_shorter srtfArrival 0 1 rfl (by decide) (by decide) (by decide)
    rfl (by decide) (by decide)

/-- Counterexample to C18 as stated, on `srtfOverAged`: the current process 0
is runnable with 8 ticks left and the new ready process 1 (age 0) needs 3
ticks, but the ready process 2 has the smallest lifespan and an age above it;
`srtf_schedule` returns no process at all. -/
theorem srtf_returns_none_on_over_aged :
    srtfOverAged.current = some 0 ∧
    (srtfOverAged.procs 0).status ≠ ProcessStatus.PROCESS_WAIT ∧
    (srtfOverAged.procs 0).age < (srtfOverAged.procs 0).lifespan ∧
    1 ∈ srtfOverAged.readyqueue ∧
    (srtfOverAged.procs 1).age = 0 ∧
    (srtfOverAged.procs 1).lifespan - (srtfOverAged.procs 1).age <
      (srtfOverAged.procs 0).lifespan - (srtfOverAged.procs 0).age ∧
    (∃ s', srtf_schedule srtfOverAged = .ok (none, s') ∧ s'.readyqueue = [0, 1, 2]) :=
  ⟨rfl, by decide, by decide, by decide, rfl, by decide, ⟨_, rfl, rfl⟩⟩

/-- Amended C19: `pcp_acquire` on a free resource returns true and makes the
current process `c` the owner with priority `MAX_PRIO`; and in every state
where `c` is current, owns the resource, still has priority `MAX_PRIO`, is not
blocked and has `age < lifespan`, `prio_schedule` returns `c` and changes
nothing, for every ready queue whose processes all have a priority strictly
below `MAX_PRIO`. -/
theorem pcp_holder_kept_below_ceiling ( MAX_PRIO : Nat) (s0 : State) (resource_id c : Nat)
    (hcur0 : s0.current = some c)
    (hfree : (s0.resources resource_id).owner = none) :
    (∃ s1, pcp_acquire MAX_PRIO s0 resource_id = .ok (true, s1) ∧
      s1.current = some c ∧
      (s1.resources resource_id).owner = some c ∧
      (s1.procs c).prio = MAX_PRIO) ∧
    (∀ s : State, s.current = some c →
      (s.resources resource_id).owner = some c →
      (s.procs c).prio = MAX_PRIO →
      (s.procs c).status ≠ ProcessStatus.PROCESS_WAIT →
      (s.procs c).age < (s.procs c).lifespan →
      (∀ q ∈ s.readyqueue, (s.procs q).prio < MAX_PRIO) →
      prio_schedule s = .ok (some c, s)) := by
  constructor
  · refine ⟨set_prio (set_owner s0 resource_id s0.current) c MAX_PRIO, ?_, hcur0, ?_, ?_⟩
    · simp only [pcp_acquire, hfree, set_owner, hcur0]
    · simp [set_prio, set_owner, hcur0]
    · simp [set_prio]
  · intro s hcur _ hprio _ hage hready
    apply prio_schedule_keeps_strict_max s c hcur hage
    intro q hq
    rw [hprio]
    exact hready q hq

/-- Witness for the amended C19: process 0 of `pcpBefore 5` is granted resource
0 with ceiling 64; in `pcpHolding 5`, where it still holds the resource with
priority 64 and the ready priorities are 5 and 7, it is scheduled again. -/
theorem pcp_holder_kept_below_ceiling_witness :
    (∃ s1, pcp_acquire 64 (pcpBefore 5) 0 = .ok (true, s1) ∧
      s1.current = some 0 ∧
      (s1.resources 0).owner = some 0 ∧
      (s1.procs 0).prio = 64) ∧
    prio_schedule (pcpHolding 5) = .ok (some 0, pcpHolding 5) :=
  ⟨(pcp_holder_kept_below_ceiling 64 (pcpBefore 5) 0 0 rfl rfl).1,
   (pcp_holder_kept_below_ceiling 64 (pcpBefore 5) 0 0 rfl rfl).2 (pcpHolding 5) rfl rfl rfl
      (by decide) (by decide) (by decide)⟩

/-- Counterexample to C19 as stated: process 0 of `pcpBefore 64` is granted
resource 0 by `pcp_acquire` with ceiling 64, is not blocked and has
`age < lifespan`; the ready process 1 has priority 64, which is not above the
ceiling. `prio_schedule` returns process 1 and puts the holder into the ready
queue; the same happens later in the hold, in `pcpHolding 64`. -/
theorem pcp_holder_preempted_at_ceiling :
    (∃ s1 s2, pcp_acquire 64 (pcpBefore 64) 0 = .ok (true, s1) ∧
      s1.current = some 0 ∧
      (s1.resources 0).owner = some 0 ∧
      (s1.procs 0).prio = 64 ∧
      (s1.procs 0).status ≠ ProcessStatus.PROCESS_WAIT ∧
      (s1.procs 0).age < (s1.procs 0).lifespan ∧
      (∀ q ∈ s1.readyqueue, (s1.procs q).prio ≤ 64) ∧
      prio_schedule s1 = .ok (some 1, s2) ∧
      s2.readyqueue = [2, 0]) ∧
    (∃ s2, prio_schedule (pcpHolding 64) = .ok (some 1, s2) ∧ s2.readyqueue = [2, 0]) :=
  ⟨⟨_, _, rfl, rfl, rfl, rfl, by decide, by decide, by decide, rfl, rfl⟩, ⟨_, rfl, rfl⟩⟩

/-- C20: in the state `s1` in which the current process `c` has just been
granted a resource by `pcp_acquire`, its priority is `MAX_PRIO`; if it is
runnable there and every ready process has a priority strictly below
`MAX_PRIO`, `prio_schedule` returns `c` and the ready queue afterwards equals
the ready queue before. -/
theorem pcp_blocks_medium_preemption ( MAX_PRIO : Nat) (s0 s1 : State) (resource_id c : Nat)
    (hcur : s0.current = some c)
    (hacq : pcp_acquire MAX_PRIO s0 resource_id = .ok (true, s1))
    (_hrun : (s1.procs c).status ≠ ProcessStatus.PROCESS_WAIT)
    (hage : (s1.procs c).age < (s1.procs c).lifespan)
    (hready : ∀ q ∈ s1.readyqueue, (s1.procs q).prio < MAX_PRIO) :
    (s1.procs c).prio = MAX_PRIO ∧
    (s1.procs c).prio_orig = (s0.procs c).prio_orig ∧
    (s1.resources resource_id).owner = some c ∧
    ∃ s2, prio_schedule s1 = .ok (some c, s2) ∧ s2.readyqueue = s1.readyqueue := by
  have hs1 : s1 = set_prio (set_owner s0 resource_id s0.current) c MAX_PRIO := by
    cases ho : (s0.resources resource_id).owner with
    | none =>
      have h : pcp_acquire MAX_PRIO s0 resource_id =
          .ok (true, set_prio (set_owner s0 resource_id s0.current) c MAX_PRIO) := by
        simp only [pcp_acquire, ho, set_owner, hcur]
      rw [h] at hacq
      injection hacq with hacq
      injection hacq with _ hacq
      exact hacq.symm
    | some o =>
      have h : pcp_acquire MAX_PRIO s0 resource_id =
          .ok (false, set_waitqueue (set_status s0 c ProcessStatus.PROCESS_WAIT) resource_id
            (list_add_tail c (s0.resources resource_id).waitqueue)) := by
        simp only [pcp_acquire, ho, block_current, hcur, set_status]
      rw [h] at hacq
      injection hacq with hacq
      injection hacq with hacq _
      cases hacq
  have hprio : (s1.procs c).prio = MAX_PRIO := by
    rw [hs1]
    simp [set_prio]
  have hcur1 : s1.current = some c := by
    rw [hs1]
    exact hcur
  refine ⟨hprio, ?_, ?_, s1, ?_, rfl⟩
  · rw [hs1]
    simp [set_prio, set_owner]
  · rw [hs1]
    simp [set_prio, set_owner, hcur]
  · apply prio_schedule_keeps_strict_max s1 c hcur1 hage
    intro q hq
    rw [hprio]
    exact hready q hq

/-- Witness for C20: process 0 of `pcpBefore 5` (base priority 1) is granted
resource 0 with ceiling 64 while the ready processes have priorities 5 and 7;
it is scheduled again and the ready queue stays `[1, 2]`. -/
theorem pcp_blocks_medium_preemption_witness :
    pcp_acquire 64 (pcpBefore 5) 0 =
      .ok (true, set_prio (set_owner (pcpBefore 5) 0 (some 0)) 0 64) ∧
    ((set_prio (set_owner (pcpBefore 5) 0 (some 0)) 0 64).procs 0).prio = 64 ∧
    ((set_prio (set_owner (pcpBefore 5) 0 (some 0)) 0 64).procs 0).prio_orig =
      ((pcpBefore 5).procs 0).prio_orig ∧
    ((set_prio (set_owner (pcpBefore 5) 0 (some 0)) 0 64).resources 0).owner = some 0 ∧
    ∃ s2, prio_schedule (set_prio (set_owner (pcpBefore 5) 0 (some 0)) 0 64) =
        .ok (some 0, s2) ∧
      s2.readyqueue = (set_prio (set_owner (pcpBefore 5) 0 (some 0)) 0 64).readyqueue :=
  ⟨rfl, pcp_blocks_medium_preemption 64 (pcpBefore 5)
    (set_prio (set_owner (pcpBefore 5) 0 (some 0)) 0 64) 0 0 rfl rfl
    (by decide) (by decide) (by decide)⟩

/-! ## The ceiling over a hold of several resources -/

/-- C21, evaluation of a PCP sequence from `pcpBefore 5`, where no resource is
owned: process 0 (base priority 1) is granted resource 0 and resource 1 by
`pcp_acquire` with ceiling 64 and then releases resource 1 with
`prio_release`. It still owns resource 0, but its priority is 1, not 64. -/
theorem pcp_ceiling_lost_after_partial_release :
    (∀ r, ((pcpBefore 5).resources r).owner = none) ∧
    ∃ s1 s2 s3, pcp_acquire 64 (pcpBefore 5) 0 = .ok (true, s1) ∧
      pcp_acquire 64 s1 1 = .ok (true, s2) ∧
      (s2.resources 0).owner = some 0 ∧ (s2.resources 1).owner = some 0 ∧
      (s2.procs 0).prio = 64 ∧
      prio_release s2 1 = .ok ((), s3) ∧
      (s3.resources 0).owner = some 0 ∧ (s3.resources 1).owner = none ∧
      (s3.procs 0).prio = 1 ∧ (s3.procs 0).prio ≠ 64 :=
  ⟨fun _ => rfl, _, _, _, rfl, rfl, rfl, rfl, rfl, rfl, rfl, rfl, rfl, by decide⟩

/-! ## Waiters are waiting -/

/-- Writing an owner leaves every wait queue as it is. -/
theorem set_owner_waitqueue (s : State) (resource_id : Nat) (o : Option Nat) (r : Nat) :
    ((set_owner s resource_id o).resources r).waitqueue = (s.resources r).waitqueue := by
  by_cases hr : r = resource_id
  · subst hr
    simp [set_owner]
  · simp [set_owner, Function.update_noteq hr]

/-- Writing an owner keeps the predicate on the waiters. -/
theorem allWaiters_set_owner (s : State) (resource_id : Nat) (o : Option Nat)
    (h : AllWaitersWaiting s) : AllWaitersWaiting (set_owner s resource_id o) := by
  intro r w hw
  rw [set_owner_waitqueue] at hw
  exact h r w hw

/-- Writing a priority keeps the predicate on the waiters. -/
theorem allWaiters_set_prio (s : State) (p v : Nat)
    (h : AllWaitersWaiting s) : AllWaitersWaiting (set_prio s p v) := by
  intro r w hw
  have hst := h r w hw
  by_cases hwp : w = p
  · subst hwp
    simpa [set_prio] using hst
  · simpa [set_prio, Function.update_noteq hwp] using hst

/-- Blocking the current process keeps the predicate on the waiters. -/
theorem allWaiters_block_current (s : State) (resource_id : Nat)
    (h : AllWaitersWaiting s) :
    AllWaitersWaiting (endState (block_current s resource_id)) := by
  cases hc : s.current with
  | none =>
    have he : block_current s resource_id = .error (Fault.nullDeref, s) := by
      simp only [block_current, hc]
    rw [he]
    exact h
  | some c =>
    have he : block_current s resource_id =
        .ok (false, set_waitqueue (set_status s c ProcessStatus.PROCESS_WAIT) resource_id
          (list_add_tail c (s.resources resource_id).waitqueue)) := by
      simp only [block_current, hc, set_status]
    rw [he]
    intro r w hw
    have hstatus : ∀ x, (x = c ∨ (s.procs x).status = ProcessStatus.PROCESS_WAIT) →
        ((endState (Except.ok (false,
          set_waitqueue (set_status s c ProcessStatus.PROCESS_WAIT) resource_id
            (list_add_tail c (s.resources resource_id).waitqueue)) :
          Outcome Bool)).procs x).status = ProcessStatus.PROCESS_WAIT := by
      intro x hx
      by_cases hxc : x = c
      · subst hxc
        simp [endState, set_waitqueue, set_status]
      · rcases hx with hx | hx
        · exact absurd hx hxc
        · simpa [endState, set_waitqueue, set_status, Function.update_noteq hxc] using hx
    apply hstatus
    by_cases hr : r = resource_id
    · subst hr
      have hw' : w ∈ (s.resources r).waitqueue ++ [c] := by
        simpa [endState, set_waitqueue, set_status, list_add_tail] using hw
      rcases List.mem_append.mp hw' with hmem | hmem
      · exact Or.inr (h r w hmem)
      · exact Or.inl (by simpa using hmem)
    · have hw' : w ∈ (s.resources r).waitqueue := by
        simpa [endState, set_waitqueue, set_status, Function.update_noteq hr] using hw
      exact Or.inr (h r w hw')

/-- The wake-up step keeps the predicate on the waiters when the woken process
is queued only once. -/
theorem allWaiters_wake_first (s : State) (resource_id : Nat)
    (h : AllWaitersWaiting s) (honce : HeadWaiterOnce s resource_id) :
    AllWaitersWaiting (endState (wake_first s resource_id)) := by
  cases hq : (s.resources resource_id).waitqueue with
  | nil =>
    rw [wake_first_nil s resource_id hq]
    exact h
  | cons w rest =>
    have hw : (s.procs w).status = ProcessStatus.PROCESS_WAIT :=
      h resource_id w (by rw [hq]; exact List.mem_cons_self _ _)
    obtain ⟨hnot, hother⟩ := honce w rest hq
    rw [wake_first_cons s resource_id w rest hq hw]
    intro r x hx
    have hxw : x ≠ w ∧ x ∈ (s.resources r).waitqueue := by
      by_cases hr : r = resource_id
      · subst hr
        have hx' : x ∈ rest := by
          simpa [endState, set_readyqueue, set_status, set_waitqueue] using hx
        refine ⟨?_, by rw [hq]; exact List.mem_cons_of_mem _ hx'⟩
        intro hxw
        rw [hxw] at hx'
        exact hnot hx'
      · have hx' : x ∈ (s.resources r).waitqueue := by
          simpa [endState, set_readyqueue, set_status, set_waitqueue,
            Function.update_noteq hr] using hx
        refine ⟨?_, hx'⟩
        intro hxw
        rw [hxw] at hx'
        exact hother r hr hx'
    have hst := h r x hxw.2
    simpa [endState, set_readyqueue, set_status, set_waitqueue,
      Function.update_noteq hxw.1] using hst

/-- The condition on the first waiter only depends on the wait queues. -/
theorem headWaiterOnce_of_same_queues (s s0 : State) (resource_id : Nat)
    (hsame : ∀ r, (s0.resources r).waitqueue = (s.resources r).waitqueue)
    (h : HeadWaiterOnce s resource_id) : HeadWaiterOnce s0 resource_id := by
  intro w rest hq
  rw [hsame] at hq
  obtain ⟨h1, h2⟩ := h w rest hq
  refine ⟨h1, ?_⟩
  intro r hr
  rw [hsame]
  exact h2 r hr

/-- In `ownedBy p q` every waiter is `PROCESS_WAIT`. -/
theorem ownedBy_allWaiters (p : Nat) (q : List Nat) : AllWaitersWaiting (ownedBy p q) := by
  intro r w hw
  by_cases hr : r = 0
  · subst hr
    have hw' : w ∈ q := hw
    simp [ownedBy, mkProc, hw']
  · have hw' : w ∈ freeResource.waitqueue := by
      simpa [ownedBy, hr] using hw
    cases hw'

/-- In `ownedBy 0 [1, 2, 3]` the first waiter is queued once. -/
theorem ownedBy_headWaiterOnce : HeadWaiterOnce (ownedBy 0 [1, 2, 3]) 0 := by
  intro w rest hq
  have hq' : [1, 2, 3] = w :: rest := hq
  injection hq' with hw hrest
  subst hw
  subst hrest
  refine ⟨by decide, ?_⟩
  intro r hr hmem
  have hmem' : 1 ∈ freeResource.waitqueue := by
    simpa [ownedBy, hr] using hmem
  cases hmem'

/-- When the owner is not the current process both release functions stop at
the ownership assertion with the state unchanged. -/
theorem release_not_owner_stops (s : State) (resource_id : Nat)
    (hne : ¬ (s.resources resource_id).owner = s.current) :
    fcfs_release s resource_id = .error (Fault.assertion, s) ∧
    prio_release s resource_id = .error (Fault.assertion, s) := by
  simp [fcfs_release, prio_release, hne]

/-- Amended C22: the predicate that every process in every wait queue is
`PROCESS_WAIT` is preserved by `fcfs_acquire`, `pcp_acquire` and `pip_acquire`
in every state, and by `fcfs_release` and `prio_release` in every state where
the first waiter of the released resource is queued only once; in any state
satisfying the predicate a release called by the owner of the resource passes
the waiter-status assertion and returns. -/
theorem waiters_waiting_preserved ( MAX_PRIO : Nat) (s : State) (resource_id : Nat)
    (h : AllWaitersWaiting s) :
    (AllWaitersWaiting (endState (fcfs_acquire s resource_id)) ∧
      AllWaitersWaiting (endState (pcp_acquire MAX_PRIO s resource_id)) ∧
      AllWaitersWaiting (endState (pip_acquire s resource_id))) ∧
    (HeadWaiterOnce s resource_id →
      AllWaitersWaiting (endState (fcfs_release s resource_id)) ∧
      AllWaitersWaiting (endState (prio_release s resource_id))) ∧
    (∀ p, s.current = some p → (s.resources resource_id).owner = some p →
      (∃ s', fcfs_release s resource_id = .ok ((), s')) ∧
      (∃ s', prio_release s resource_id = .ok ((), s'))) := by
  refine ⟨?_, ?_, ?_⟩
  · cases ho : (s.resources resource_id).owner with
    | none =>
      refine ⟨?_, ?_, ?_⟩
      · have he : fcfs_acquire s resource_id =
            .ok (true, set_owner s resource_id s.current) := by
          simp [fcfs_acquire, ho]
        rw [he]
        exact allWaiters_set_owner s resource_id s.current h
      · cases hc : s.current with
        | none =>
          have he : pcp_acquire MAX_PRIO s resource_id =
              .error (Fault.nullDeref, set_owner s resource_id none) := by
            simp only [pcp_acquire, ho, set_owner, hc]
          rw [he]
          exact allWaiters_set_owner s resource_id none h
        | some c =>
          have he : pcp_acquire MAX_PRIO s resource_id =
              .ok (true, set_prio (set_owner s resource_id (some c)) c MAX_PRIO) := by
            simp only [pcp_acquire, ho, set_owner, hc]
          rw [he]
          exact allWaiters_set_prio _ c MAX_PRIO (allWaiters_set_owner s resource_id _ h)
      · have he : pip_acquire s resource_id =
            .ok (true, set_owner s resource_id s.current) := by
          simp [pip_acquire, ho]
        rw [he]
        exact allWaiters_set_owner s resource_id s.current h
    | some o =>
      have hb := allWaiters_block_current s resource_id h
      refine ⟨?_, ?_, ?_⟩
      · simpa only [fcfs_acquire, ho] using hb
      · simpa only [pcp_acquire, ho] using hb
      · simpa only [pip_acquire, ho] using hb
  · intro honce
    constructor
    · by_cases hoc : (s.resources resource_id).owner = s.current
      · have he : fcfs_release s resource_id =
            wake_first (set_owner s resource_id none) resource_id := by
          simp [fcfs_release, hoc]
        rw [he]
        exact allWaiters_wake_first _ resource_id (allWaiters_set_owner s resource_id none h)
          (headWaiterOnce_of_same_queues s _ resource_id
            (fun r => set_owner_waitqueue s resource_id none r) honce)
      · rw [(release_not_owner_stops s resource_id hoc).1]
        exact h
    · by_cases hoc : (s.resources resource_id).owner = s.current
      · cases ho : (s.resources resource_id).owner with
        | none =>
          have he : prio_release s resource_id = .error (Fault.nullDeref, s) := by
            simp [prio_release, ← hoc, ho]
          rw [he]
          exact h
        | some o =>
          have he : prio_release s resource_id =
              wake_first (set_owner (set_prio s o (s.procs o).prio_orig) resource_id none)
                resource_id := by
            simp [prio_release, ← hoc, ho]
          rw [he]
          exact allWaiters_wake_first _ resource_id
            (allWaiters_set_owner _ resource_id none (allWaiters_set_prio s o _ h))
            (headWaiterOnce_of_same_queues s _ resource_id
              (fun r => set_owner_waitqueue (set_prio s o (s.procs o).prio_orig)
                resource_id none r) honce)
      · rw [(release_not_owner_stops s resource_id hoc).2]
        exact h
  · intro p hcur hown
    constructor
    · have he : fcfs_release s resource_id =
          wake_first (set_owner s resource_id none) resource_id := by
        simp [fcfs_release, hcur, hown]
      rw [he]
      apply wake_first_returns
      intro w rest hq
      rw [set_owner_waitqueue] at hq
      exact h resource_id w (by rw [hq]; exact List.mem_cons_self _ _)
    · have he : prio_release s resource_id =
          wake_first (set_owner (set_prio s p (s.procs p).prio_orig) resource_id none)
            resource_id := by
        simp [prio_release, hcur, hown]
      rw [he]
      apply wake_first_returns
      intro w rest hq
      exact allWaiters_set_owner _ resource_id none (allWaiters_set_prio s p _ h)
        resource_id w (by rw [hq]; exact List.mem_cons_self _ _)

/-- Witness for the amended C22 on `ownedBy 0 [1, 2, 3]`: process 0 owns
resource 0 and processes 1, 2 and 3 wait for it, each queued once. -/
theorem waiters_waiting_preserved_witness :
    (AllWaitersWaiting (endState (fcfs_acquire (ownedBy 0 [1, 2, 3]) 0)) ∧
      AllWaitersWaiting (endState (pcp_acquire 64 (ownedBy 0 [1, 2, 3]) 0)) ∧
      AllWaitersWaiting (endState (pip_acquire (ownedBy 0 [1, 2, 3]) 0))) ∧
    (AllWaitersWaiting (endState (fcfs_release (ownedBy 0 [1, 2, 3]) 0)) ∧
      AllWaitersWaiting (endState (prio_release (ownedBy 0 [1, 2, 3]) 0))) ∧
    ((∃ s', fcfs_release (ownedBy 0 [1, 2, 3]) 0 = .ok ((), s')) ∧
      (∃ s', prio_release (ownedBy 0 [1, 2, 3]) 0 = .ok ((), s'))) :=
  have h := waiters_waiting_preserved 64 (ownedBy 0 [1, 2, 3]) 0
    (ownedBy_allWaiters 0 [1, 2, 3])
  ⟨h.1, h.2.1 ownedBy_headWaiterOnce, h.2.2 0 rfl rfl⟩

/-- In `queuedTwice` every waiter is `PROCESS_WAIT`. -/
theorem queuedTwice_allWaiters : AllWaitersWaiting queuedTwice := by
  intro r w hw
  by_cases hr : r = 0
  · subst hr
    have hw' : w ∈ [1, 1] := hw
    have hw1 : w = 1 := by simpa using hw'
    subst hw1
    rfl
  · have hw' : w ∈ freeResource.waitqueue := by
      simpa [queuedTwice, hr] using hw
    cases hw'

/-- Counterexample to C22 as stated: two successive acquire calls by process 1
on the busy resource 0 queue it twice, with status `PROCESS_WAIT`. In
`queuedTwice`, where the owner runs again, every waiter is `PROCESS_WAIT`, and
a release by the owner returns; afterwards process 1 is `PROCESS_READY` and
still in the wait queue, so the predicate no longer holds. -/
theorem release_breaks_waiters_waiting :
    (∃ s1 s2, fcfs_acquire requestTwice 0 = .ok (false, s1) ∧
      fcfs_acquire s1 0 = .ok (false, s2) ∧
      (s2.resources 0).waitqueue = [1, 1] ∧
      (s2.procs 1).status = ProcessStatus.PROCESS_WAIT) ∧
    AllWaitersWaiting queuedTwice ∧
    queuedTwice.current = some 0 ∧ (queuedTwice.resources 0).owner = some 0 ∧
    (∃ s', fcfs_release queuedTwice 0 = .ok ((), s') ∧
      (s'.resources 0).waitqueue = [1] ∧
      (s'.procs 1).status = ProcessStatus.PROCESS_READY ∧
      ¬ AllWaitersWaiting s') ∧
    (∃ s', prio_release queuedTwice 0 = .ok ((), s') ∧
      (s'.resources 0).waitqueue = [1] ∧
      (s'.procs 1).status = ProcessStatus.PROCESS_READY ∧
      ¬ AllWaitersWaiting s') :=
  ⟨⟨_, _, rfl, rfl, rfl, rfl⟩, queuedTwice_allWaiters, rfl, rfl,
    ⟨_, rfl, rfl, rfl, fun h => absurd (h 0 1 (by decide)) (by decide)⟩,
    ⟨_, rfl, rfl, rfl, fun h => absurd (h 0 1 (by decide)) (by decide)⟩⟩

/-! ## Conservation of processes by `schedule` -/

/-- Two returned pairs are equal only if process and state are. -/
theorem ok_some_inj (x p : Nat) (st s' : State)
    (h : (Except.ok (some x, st) : Outcome (Option Nat)) = .ok (some p, s')) :
    x = p ∧ st = s' := by
  injection h with h
  injection h with h1 h2
  injection h1 with h1
  exact ⟨h1, h2⟩

/-- A call that returns no process conserves trivially. -/
theorem conserved_none (s st : State) : Conserved s (.ok (none, st)) := by
  intro p s' h
  injection h with h
  injection h with h1 _
  cases h1

/-- A call that ends with a fault conserves trivially. -/
theorem conserved_error (s : State) (e : Fault × State) : Conserved s (.error e) := by
  intro p s' h
  cases h

/-- Removing `p` from a queue does not change the others. -/
theorem others_erase (s : State) (p : Nat) (l : List Nat) :
    others s p (l.erase p) = others s p l := by
  induction l with
  | nil => rfl
  | cons x xs ih =>
    by_cases hx : x = p
    · subst hx
      simp [others]
    · have hne : ¬ (x == p) = true := by simpa using hx
      rw [List.erase_cons_tail hne]
      unfold others at ih ⊢
      simp only [List.filter_cons]
      rw [ih]

/-- Putting the current process in front of a queue does not change the
others. -/
theorem others_cons_current (s : State) (p c : Nat) (l : List Nat)
    (hc : s.current = some c) : others s p (c :: l) = others s p l := by
  simp [others, hc]

/-- Putting the current process behind a queue does not change the others. -/
theorem others_append_current (s : State) (p c : Nat) (l : List Nat)
    (hc : s.current = some c) : others s p (l ++ [c]) = others s p l := by
  simp [others, hc]

/-- The candidates have no duplicates when the ready queue has none and the
current process is not in it. -/
theorem candidates_nodup (s : State) (hnd : s.readyqueue.Nodup)
    (hcur : ∀ c, s.current = some c → c ∉ s.readyqueue) : (candidates s).Nodup := by
  unfold candidates
  cases hc : s.current with
  | none => simpa using hnd
  | some c =>
    by_cases hage : (s.procs c).age < (s.procs c).lifespan
    · simp only [hage, if_true]
      rw [(List.perm_append_singleton c s.readyqueue).nodup_iff]
      exact List.nodup_cons.mpr ⟨hcur c hc, hnd⟩
    · simpa [hage] using hnd

/-- Conservation for a call that detaches `p` from the queue `l`, where `l` is
the ready queue with or without the current process put back. -/
theorem conserved_pick (s st : State) (l : List Nat) (p : Nat)
    (hnd : (candidates s).Nodup)
    (hperm : l.Perm (candidates s))
    (hoth : others s p l = others s p s.readyqueue)
    (hmem : p ∈ l)
    (hst : st.readyqueue = l.erase p) :
    Conserved s (.ok (some p, st)) := by
  intro p' s' h
  obtain ⟨hp, hs⟩ := ok_some_inj p p' st s' h
  subst hp
  subst hs
  have hp : (p :: st.readyqueue).Perm (candidates s) := by
    rw [hst]
    exact (List.perm_cons_erase hmem).symm.trans hperm
  refine ⟨hp, hp.nodup_iff.mpr hnd, ?_⟩
  rw [hst, others_erase, hoth]

/-- Conservation for a call that keeps the current process and the state. -/
theorem conserved_keep (s : State) (c : Nat)
    (hnd : (candidates s).Nodup)
    (hc : s.current = some c)
    (hage : (s.procs c).age < (s.procs c).lifespan) :
    Conserved s (.ok (some c, s)) := by
  intro p' s' h
  obtain ⟨hp, hs⟩ := ok_some_inj c p' s s' h
  subst hp
  subst hs
  have hcand : candidates s = s.readyqueue ++ [c] := by
    simp [candidates, hc, hage]
  have hp : (c :: s.readyqueue).Perm (candidates s) := by
    rw [hcand]
    exact (List.perm_append_singleton c s.readyqueue).symm
  exact ⟨hp, hp.nodup_iff.mpr hnd, rfl⟩

/-- The candidates are the ready queue when there is no current process. -/
theorem candidates_of_none (s : State) (hc : s.current = none) :
    candidates s = s.readyqueue := by
  simp [candidates, hc]

/-- The candidates are the ready queue when the current process has finished. -/
theorem candidates_of_done (s : State) (c : Nat) (hc : s.current = some c)
    (hage : ¬ (s.procs c).age < (s.procs c).lifespan) :
    candidates s = s.readyqueue := by
  simp [candidates, hc, hage]

/-- The candidates are the ready queue followed by the current process when
that process has `age < lifespan`. -/
theorem candidates_of_running (s : State) (c : Nat) (hc : s.current = some c)
    (hage : (s.procs c).age < (s.procs c).lifespan) :
    candidates s = s.readyqueue ++ [c] := by
  simp [candidates, hc, hage]

/-- The loop of `sjf_schedule` ends with the `sjfSmallest` it started with or
with a member of the queue. -/
theorem sjf_fold_mem (s : State) (l : List Nat) (acc : Nat × Option Nat) :
    (l.foldl (sjf_step s) acc).2 = acc.2 ∨
    ∃ p, p ∈ l ∧ (l.foldl (sjf_step s) acc).2 = some p := by
  induction l generalizing acc with
  | nil => exact Or.inl rfl
  | cons x xs ih =>
    have hstep : (sjf_step s acc x).2 = acc.2 ∨ (sjf_step s acc x).2 = some x := by
      unfold sjf_step
      split
      · exact Or.inr rfl
      · exact Or.inl rfl
    simp only [List.foldl_cons]
    rcases ih (sjf_step s acc x) with h | ⟨p, hp, h⟩
    · rcases hstep with h' | h'
      · exact Or.inl (h.trans h')
      · exact Or.inr ⟨x, List.mem_cons_self _ _, h.trans h'⟩
    · exact Or.inr ⟨p, List.mem_cons_of_mem _ hp, h⟩

/-- Conservation for the label `pick_next` when the candidates are the ready
queue. -/
theorem pick_next_conserved (s : State) (hnd : (candidates s).Nodup)
    (hcand : candidates s = s.readyqueue) : Conserved s (pick_next s) := by
  cases hq : s.readyqueue with
  | nil =>
    have he : pick_next s = .ok (none, s) := by simp only [pick_next, hq]
    rw [he]
    exact conserved_none s s
  | cons h t =>
    have he : pick_next s =
        .ok (some h, set_readyqueue s (list_del_init h (h :: t))) := by
      simp only [pick_next, hq]
    rw [he]
    exact conserved_pick s _ (h :: t) h hnd (by rw [hcand, hq]) (by rw [hq])
      (List.mem_cons_self _ _) rfl

/-- Conservation for `fifo_schedule` when the current process is not blocked. -/
theorem fifo_conserved (s : State) (hnd : (candidates s).Nodup)
    (hrun : ∀ c, s.current = some c → (s.procs c).status ≠ ProcessStatus.PROCESS_WAIT) :
    Conserved s (fifo_schedule s) := by
  cases hc : s.current with
  | none =>
    have he : fifo_schedule s = pick_next s := by simp only [fifo_schedule, hc]
    rw [he]
    exact pick_next_conserved s hnd (candidates_of_none s hc)
  | some c =>
    have hst := hrun c hc
    by_cases hage : (s.procs c).age < (s.procs c).lifespan
    · have he : fifo_schedule s = .ok (some c, s) := by
        simp [fifo_schedule, hc, hst, hage]
      rw [he]
      exact conserved_keep s c hnd hc hage
    · have he : fifo_schedule s = pick_next s := by
        simp [fifo_schedule, hc, hst, hage]
      rw [he]
      exact pick_next_conserved s hnd (candidates_of_done s c hc hage)

/-- Conservation for the selection of `sjf_schedule` from the ready queue. -/
theorem sjf_select_conserved (s : State) (hnd : (candidates s).Nodup)
    (hcand : candidates s = s.readyqueue)
    (hsel : sjf_schedule s =
      match s.readyqueue with
      | [] => .ok (none, s)
      | first :: rest =>
        match ((first :: rest).foldl (sjf_step s) ((s.procs first).lifespan, none)).2 with
        | none => .error (Fault.nullDeref, s)
        | some sjfSmallest =>
          .ok (some sjfSmallest,
            set_readyqueue s (list_del_init sjfSmallest (first :: rest)))) :
    Conserved s (sjf_schedule s) := by
  rw [hsel]
  cases hq : s.readyqueue with
  | nil => exact conserved_none s s
  | cons first rest =>
    cases hf : ((first :: rest).foldl (sjf_step s) ((s.procs first).lifespan, none)).2 with
    | none =>
      simp only [hf]
      exact conserved_error s _
    | some sm =>
      simp only [hf]
      have hmem : sm ∈ first :: rest := by
        rcases sjf_fold_mem s (first :: rest) ((s.procs first).lifespan, none) with h | h
        · rw [hf] at h
          cases h
        · obtain ⟨p, hp, h⟩ := h
          rw [hf] at h
          injection h with h
          rw [h]
          exact hp
      exact conserved_pick s _ (first :: rest) sm hnd (by rw [hcand, hq]) (by rw [hq])
        hmem rfl

/-- Conservation for `sjf_schedule`. -/
theorem sjf_conserved (s : State) (hnd : (candidates s).Nodup) :
    Conserved s (sjf_schedule s) := by
  cases hc : s.current with
  | none =>
    apply sjf_select_conserved s hnd (candidates_of_none s hc)
    simp [sjf_schedule, hc]
  | some c =>
    by_cases hage : (s.procs c).age < (s.procs c).lifespan
    · have he : sjf_schedule s = .ok (some c, s) := by
        simp [sjf_schedule, hc, hage]
      rw [he]
      exact conserved_keep s c hnd hc hage
    · apply sjf_select_conserved s hnd (candidates_of_done s c hc hage)
      simp [sjf_schedule, hc, hage]

/-- Conservation for `srtf_schedule`. -/
theorem srtf_conserved (s : State) (hnd : (candidates s).Nodup) :
    Conserved s (srtf_schedule s) := by
  cases hc : s.current with
  | none =>
    cases hq : s.readyqueue with
    | nil =>
      have he : srtf_schedule s = .ok (none, s) := by simp only [srtf_schedule, hc, hq]
      rw [he]
      exact conserved_none s s
    | cons first rest =>
      have he : srtf_schedule s =
          .ok (some ((first :: rest).foldl (srtf_step s) first),
            set_readyqueue s
              (list_del_init ((first :: rest).foldl (srtf_step s) first) (first :: rest))) := by
        simp only [srtf_schedule, hc, hq]
      rw [he]
      have hmem : (first :: rest).foldl (srtf_step s) first ∈ first :: rest := by
        rcases (srtf_fold_spec s (first :: rest) first).1 with h | h
        · rw [h]
          exact List.mem_cons_self _ _
        · exact h
      exact conserved_pick s _ (first :: rest) _ hnd
        (by rw [candidates_of_none s hc, hq]) (by rw [hq]) hmem rfl
  | some c =>
    cases hq : s.readyqueue with
    | nil =>
      by_cases hage : (s.procs c).age < (s.procs c).lifespan
      · have he : srtf_schedule s = .ok (some c, s) := by
          simp only [srtf_schedule, hc, hq, hage, if_true]
        rw [he]
        exact conserved_keep s c hnd hc hage
      · have he : srtf_schedule s = .ok (none, s) := by
          simp only [srtf_schedule, hc, hq, hage, if_false]
        rw [he]
        exact conserved_none s s
    | cons first rest =>
      by_cases hage : (s.procs c).age < (s.procs c).lifespan
      · have hmem : (c :: first :: rest).foldl (srtf_step s) first ∈ c :: first :: rest := by
          rcases (srtf_fold_spec s (c :: first :: rest) first).1 with h | h
          · rw [h]
            exact List.mem_cons_of_mem _ (List.mem_cons_self _ _)
          · exact h
        have hperm : (c :: first :: rest).Perm (candidates s) := by
          rw [candidates_of_running s c hc hage, hq]
          exact (List.perm_append_singleton c (first :: rest)).symm
        have hoth : ∀ p, others s p (c :: first :: rest) = others s p s.readyqueue := by
          intro p
          rw [hq, others_cons_current s p c _ hc]
        simp only [srtf_schedule, hc, hq, hage, if_true, list_add]
        split
        · exact conserved_pick s _ (c :: first :: rest) _ hnd hperm (hoth _) hmem rfl
        · exact conserved_none s _
      · have hmem : (first :: rest).foldl (srtf_step s) first ∈ first :: rest := by
          rcases (srtf_fold_spec s (first :: rest) first).1 with h | h
          · rw [h]
            exact List.mem_cons_self _ _
          · exact h
        have hperm : (first :: rest).Perm (candidates s) := by
          rw [candidates_of_done s c hc hage, hq]
        simp only [srtf_schedule, hc, hq, hage, if_false]
        split
        · exact conserved_pick s _ (first :: rest) _ hnd hperm (by rw [hq]) hmem rfl
        · exact conserved_none s _

/-- Conservation for `rr_schedule`. -/
theorem rr_conserved (s : State) (hnd : (candidates s).Nodup) :
    Conserved s (rr_schedule s) := by
  cases hq : s.readyqueue with
  | nil =>
    cases hc : s.current with
    | none =>
      have he : rr_schedule s = .error (Fault.nullDeref, s) := by
        simp only [rr_schedule, hq, hc]
      rw [he]
      exact conserved_error s _
    | some c =>
      by_cases hage : (s.procs c).age < (s.procs c).lifespan
      · have he : rr_schedule s = .ok (some c, s) := by
          simp only [rr_schedule, hq, hc, hage, if_true]
        rw [he]
        exact conserved_keep s c hnd hc hage
      · have he : rr_schedule s = .ok (none, s) := by
          simp only [rr_schedule, hq, hc, hage, if_false]
        rw [he]
        exact conserved_none s s
  | cons h t =>
    cases hc : s.current with
    | none =>
      have he : rr_schedule s =
          .ok (some h, set_readyqueue s (list_del_init h (h :: t))) := by
        simp only [rr_schedule, hq, hc]
      rw [he]
      exact conserved_pick s _ (h :: t) h hnd (by rw [candidates_of_none s hc, hq])
        (by rw [hq]) (List.mem_cons_self _ _) rfl
    | some c =>
      by_cases hage : (s.procs c).age < (s.procs c).lifespan
      · have he : rr_schedule s =
            .ok (some h, set_readyqueue (set_readyqueue s (h :: t ++ [c]))
              (list_del_init h (h :: t ++ [c]))) := by
          simp only [rr_schedule, hq, hc, hage, if_true, list_add_tail]
          rfl
        rw [he]
        exact conserved_pick s _ (h :: t ++ [c]) h hnd
          (by rw [candidates_of_running s c hc hage, hq])
          (by rw [hq, others_append_current s h c _ hc])
          (List.mem_cons_self _ _) rfl
      · have he : rr_schedule s =
            .ok (some h, set_readyqueue s (list_del_init h (h :: t))) := by
          simp only [rr_schedule, hq, hc, hage, if_false]
        rw [he]
        exact conserved_pick s _ (h :: t) h hnd (by rw [candidates_of_done s c hc hage, hq])
          (by rw [hq]) (List.mem_cons_self _ _) rfl

/-- Conservation for `prio_schedule`. -/
theorem prio_conserved (s : State) (hnd : (candidates s).Nodup) :
    Conserved s (prio_schedule s) := by
  cases hc : s.current with
  | none =>
    cases hq : s.readyqueue with
    | nil =>
      have he : prio_schedule s = .ok (none, s) := by simp only [prio_schedule, hc, hq]
      rw [he]
      exact conserved_none s s
    | cons first rest =>
      have he : prio_schedule s =
          .ok (some ((first :: rest).foldl (prio_step s) first),
            set_readyqueue s
              (list_del_init ((first :: rest).foldl (prio_step s) first) (first :: rest))) := by
        simp only [prio_schedule, hc, hq]
      rw [he]
      have hmem : (first :: rest).foldl (prio_step s) first ∈ first :: rest := by
        rcases prio_fold_mem s (first :: rest) first with h | h
        · rw [h]
          exact List.mem_cons_self _ _
        · exact h
      exact conserved_pick s _ (first :: rest) _ hnd
        (by rw [candidates_of_none s hc, hq]) (by rw [hq]) hmem rfl
  | some c =>
    cases hq : s.readyqueue with
    | nil =>
      by_cases hage : (s.procs c).age < (s.procs c).lifespan
      · have he : prio_schedule s = .ok (some c, s) := by
          simp only [prio_schedule, hc, hq, hage, if_true]
        rw [he]
        exact conserved_keep s c hnd hc hage
      · have he : prio_schedule s = .ok (none, s) := by
          simp only [prio_schedule, hc, hq, hage, if_false]
        rw [he]
        exact conserved_none s s
    | cons first rest =>
      by_cases hage : (s.procs c).age < (s.procs c).lifespan
      · have hmem : (first :: rest ++ [c]).foldl (prio_step s) first ∈
            first :: rest ++ [c] := by
          rcases prio_fold_mem s (first :: rest ++ [c]) first with h | h
          · rw [h]
            exact List.mem_cons_self _ _
          · exact h
        have hperm : (first :: rest ++ [c]).Perm (candidates s) := by
          rw [candidates_of_running s c hc hage, hq]
        have hoth : ∀ p, others s p (first :: rest ++ [c]) = others s p s.readyqueue := by
          intro p
          rw [hq, others_append_current s p c _ hc]
        simp only [prio_schedule, hc, hq, hage, if_true, list_add_tail]
        split
        · exact conserved_pick s _ (first :: rest ++ [c]) _ hnd hperm (hoth _) hmem rfl
        · exact conserved_none s _
      · have hmem : (first :: rest).foldl (prio_step s) first ∈ first :: rest := by
          rcases prio_fold_mem s (first :: rest) first with h | h
          · rw [h]
            exact List.mem_cons_self _ _
          · exact h
        have hperm : (first :: rest).Perm (candidates s) := by
          rw [candidates_of_done s c hc hage, hq]
        simp only [prio_schedule, hc, hq, hage, if_false]
        split
        · exact conserved_pick s _ (first :: rest) _ hnd hperm (by rw [hq]) hmem rfl
        · exact conserved_none s _

/-- C23: on a state whose ready queue has no duplicates and whose current
process, if any, is not blocked, not in the ready queue and has
`age ≤ lifespan`, each of `fifo_schedule`, `sjf_schedule`, `srtf_schedule`,
`rr_schedule` and `prio_schedule` conserves the processes: when the call
returns a process `p`, `p` together with the new ready queue is a permutation
of the old ready queue plus the current process if it had `age < lifespan`,
without duplicates, and the ready processes other than `p` and the current
process keep their relative order. -/
theorem schedule_conserves_processes (s : State)
    (hnodup : s.readyqueue.Nodup)
    (hcur : ∀ c, s.current = some c →
      (s.procs c).status ≠ ProcessStatus.PROCESS_WAIT ∧
      c ∉ s.readyqueue ∧
      (s.procs c).age ≤ (s.procs c).lifespan) :
    Conserved s (fifo_schedule s) ∧
    Conserved s (sjf_schedule s) ∧
    Conserved s (srtf_schedule s) ∧
    Conserved s (rr_schedule s) ∧
    Conserved s (prio_schedule s) := by
  have hnd : (candidates s).Nodup :=
    candidates_nodup s hnodup (fun c hc => (hcur c hc).2.1)
  exact ⟨fifo_conserved s hnd (fun c hc => (hcur c hc).1), sjf_conserved s hnd,
    srtf_conserved s hnd, rr_conserved s hnd, prio_conserved s hnd⟩

/-- Witness for C23 on `fourProcs` (process 0 running and unfinished, ready
queue `[1, 2, 3]`): every scheduler returns a process and conserves; and on
`fourProcsDone`, where process 0 has finished, `rr_schedule` does. -/
theorem schedule_conserves_processes_witness :
    fourProcs.readyqueue.Nodup ∧
    (∃ p s', fifo_schedule fourProcs = .ok (some p, s') ∧
      (p :: s'.readyqueue).Perm (candidates fourProcs) ∧
      (p :: s'.readyqueue).Nodup ∧
      others fourProcs p s'.readyqueue = others fourProcs p fourProcs.readyqueue) ∧
    (∃ p s', sjf_schedule fourProcs = .ok (some p, s') ∧
      (p :: s'.readyqueue).Perm (candidates fourProcs) ∧
      (p :: s'.readyqueue).Nodup ∧
      others fourProcs p s'.readyqueue = others fourProcs p fourProcs.readyqueue) ∧
    (∃ p s', srtf_schedule fourProcs = .ok (some p, s') ∧
      (p :: s'.readyqueue).Perm (candidates fourProcs) ∧
      (p :: s'.readyqueue).Nodup ∧
      others fourProcs p s'.readyqueue = others fourProcs p fourProcs.readyqueue) ∧
    (∃ p s', rr_schedule fourProcs = .ok (some p, s') ∧
      (p :: s'.readyqueue).Perm (candidates fourProcs) ∧
      (p :: s'.readyqueue).Nodup ∧
      others fourProcs p s'.readyqueue = others fourProcs p fourProcs.readyqueue) ∧
    (∃ p s', prio_schedule fourProcs = .ok (some p, s') ∧
      (p :: s'.readyqueue).Perm (candidates fourProcs) ∧
      (p :: s'.readyqueue).Nodup ∧
      others fourProcs p s'.readyqueue = others fourProcs p fourProcs.readyqueue) ∧
    (∃ p s', rr_schedule fourProcsDone = .ok (some p, s') ∧
      (p :: s'.readyqueue).Perm (candidates fourProcsDone) ∧
      (p :: s'.readyqueue).Nodup ∧
      others fourProcsDone p s'.readyqueue =
        others fourProcsDone p fourProcsDone.readyqueue) :=
  have hc : ∀ c, fourProcs.current = some c →
      (fourProcs.procs c).status ≠ ProcessStatus.PROCESS_WAIT ∧
      c ∉ fourProcs.readyqueue ∧
      (fourProcs.procs c).age ≤ (fourProcs.procs c).lifespan := by
    intro c hc
    have h0 : some 0 = some c := hc
    injection h0 with h0
    subst h0
    exact ⟨by decide, by decide, by decide⟩
  have hd : ∀ c, fourProcsDone.current = some c →
      (fourProcsDone.procs c).status ≠ ProcessStatus.PROCESS_WAIT ∧
      c ∉ fourProcsDone.readyqueue ∧
      (fourProcsDone.procs c).age ≤ (fourProcsDone.procs c).lifespan := by
    intro c hc
    have h0 : some 0 = some c := hc
    injection h0 with h0
    subst h0
    exact ⟨by decide, by decide, by decide⟩
  have h := schedule_conserves_processes fourProcs (by decide) hc
  have h' := schedule_conserves_processes fourProcsDone (by decide) hd
  ⟨by decide,
   ⟨0, _, rfl, h.1 0 _ rfl⟩,
   ⟨0, _, rfl, h.2.1 0 _ rfl⟩,
   ⟨2, _, rfl, h.2.2.1 2 _ rfl⟩,
   ⟨1, _, rfl, h.2.2.2.1 1 _ rfl⟩,
   ⟨2, _, rfl, h.2.2.2.2 2 _ rfl⟩,
   ⟨1, _, rfl, h'.2.2.2.1 1 _ rfl⟩⟩

end PCPScheduler
